import Mathlib

/-!
Verification of the `ustc-crawler` RDF converter
(`src/converter/src/rdf_converter.mts`) against its natural-language
specification.  The TypeScript source is shallowly embedded below:
strings are Lean `String`s (lists of Unicode scalars; the JS code only
manipulates BMP code units, where the two models agree), JS `undefined`
for optional record fields is `Option`, and code that can throw a
`TypeError` is embedded in `Except String`.
-/

namespace RdfConv

set_option maxRecDepth 16384

/-- Allowed XML characters: tab, newline, carriage return, U+0020 to
U+D7FF and U+E000 to U+FFFD.  This is the character class of the strip
regex used by `escapeXml` and the input pre-filter (a character outside
the class is removed). -/
def allowedXmlChar (c : Char) : Bool :=
  c = '\x09' || c = '\x0A' || c = '\x0D' ||
  (0x20 ≤ c.val && c.val ≤ 0xD7FF) ||
  (0xE000 ≤ c.val && c.val ≤ 0xFFFD)

/-- Strip every character outside the allowed XML ranges (the
`.replace` of the negated character class with the empty string). -/
def filterXmlChars (s : String) : String :=
  ⟨s.data.filter allowedXmlChar⟩

/-- JS `str.replace` with a single-character global pattern `c`:
every occurrence of `c` is replaced by `rep`, left to right, without
rescanning the replacement text. -/
def replaceChar (c : Char) (rep : String) (s : String) : String :=
  ⟨s.data.flatMap (fun d => if d = c then rep.data else [d])⟩

/-- Embedding of `escapeXml` from the source: return the empty string
for a falsy (empty) input, otherwise strip disallowed characters and
then replace ampersand, less-than, greater-than, double quote and
apostrophe, in that order. -/
def escapeXml (str : String) : String :=
  if str = "" then ""
  else
    replaceChar '\'' "&apos;"
      (replaceChar '"' "&quot;"
        (replaceChar '>' "&gt;"
          (replaceChar '<' "&lt;"
            (replaceChar '&' "&amp;" (filterXmlChars str)))))

/-- Spec-side character escaping, written from the spec's words: a
disallowed character is removed, each of the five special characters
becomes its entity, and every other character is unaltered. -/
def escapeXmlCharSpec (c : Char) : List Char :=
  if !allowedXmlChar c then []
  else if c = '&' then "&amp;".data
  else if c = '<' then "&lt;".data
  else if c = '>' then "&gt;".data
  else if c = '"' then "&quot;".data
  else if c = '\'' then "&apos;".data
  else [c]

/-- Spec-side escaping of a whole string: per-character escaping,
concatenated. -/
def escapeXmlSpec (s : String) : String :=
  ⟨s.data.flatMap escapeXmlCharSpec⟩


/-- Person record of the source (`interface Person`). -/
structure Person where
  firstName : String
  lastName : String
deriving DecidableEq, Repr

/-- Publisher record of the source (`interface Publisher`).  The source
can leave `name` as JS `undefined` (when the CSV has no `printer_name`
column); the only consumer is `escapeXml`, which maps both `undefined`
and the empty string to the empty string, so `undefined` is modelled as
the empty string. -/
structure Publisher where
  name : String
  location : String
deriving DecidableEq, Repr

/-- Series record of the source (`interface Series`). -/
structure Series where
  title : String
  number : Option String := none
deriving DecidableEq, Repr

/-- Attachment record of the source (`interface Attachment`). -/
structure Attachment where
  id : String
  title : String
  url : Option String := none
  mimeType : Option String := none
  dateSubmitted : Option String := none
  linkMode : Option String := none
deriving DecidableEq, Repr

/-- Memo record of the source (`interface Memo`). -/
structure Memo where
  id : String
  value : String
deriving DecidableEq, Repr

/-- Item record of the source (`interface ZoteroItem`); optional TS
fields become `Option`. -/
structure ZoteroItem where
  id : String
  itemType : String
  title : Option String := none
  shortTitle : Option String := none
  abstract : Option String := none
  date : Option String := none
  language : Option String := none
  libraryCatalog : Option String := none
  numPages : Option String := none
  numberOfVolumes : Option String := none
  edition : Option String := none
  extra : Option String := none
  description : Option String := none
  volume : Option String := none
  archive : Option String := none
  archiveLocation : Option String := none
  callNumber : Option String := none
  rights : Option String := none
  isbn : Option String := none
  publisher : Option Publisher := none
  series : Option Series := none
  authors : Option (List Person) := none
  editors : Option (List Person) := none
  seriesEditors : Option (List Person) := none
  contributors : Option (List Person) := none
  translators : Option (List Person) := none
  subjects : Option (List String) := none
  dateSubmitted : Option String := none
  url : Option String := none
  attachments : Option (List Attachment) := none
  memos : Option (List Memo) := none
  isReferencedBy : Option (List String) := none
deriving DecidableEq, Repr

/-- Result record of the source (`interface ZoteroData`); the JS object
`relations` is an insertion-ordered string-keyed map, modelled as an
association list. -/
structure ZoteroData where
  items : List ZoteroItem
  relations : List (String × List String)
deriving DecidableEq, Repr

/-! JS string helpers used by the source. -/

/-- Worker for `splitOnChar`. -/
def splitCharAux (sep : Char) : List Char → List Char → List String
  | [], cur => [⟨cur⟩]
  | c :: rest, cur =>
    if c == sep then ⟨cur⟩ :: splitCharAux sep rest []
    else splitCharAux sep rest (cur ++ [c])

/-- JS `str.split(sep)` for a one-character separator. -/
def splitOnChar (sep : Char) (s : String) : List String :=
  splitCharAux sep s.data []

/-- JS `str.includes(c)` for a one-character needle. -/
def jsIncludes (s : String) (c : Char) : Bool :=
  s.data.contains c

/-- JS `str.trim()`: remove leading and trailing whitespace.  (The JS
whitespace set also has exotic members such as no-break space; the
inputs this program trims are ASCII, where the two sets agree.) -/
def jsTrim (s : String) : String :=
  ⟨((s.data.dropWhile Char.isWhitespace).reverse.dropWhile
      Char.isWhitespace).reverse⟩

/-- JS `str.toLowerCase()`: per-character lowercasing.  (JS lowercases
beyond ASCII; the strings this program lowercases — type names and file
extensions — are ASCII, where `Char.toLower` agrees.) -/
def jsToLower (s : String) : String :=
  ⟨s.data.map Char.toLower⟩

/-- Code-unit comparison of two characters, as JS string comparison
performs it (numeric comparison of the code units; on BMP text the code
unit is the code point). -/
def charLt (a b : Char) : Bool :=
  decide (a.toNat < b.toNat)

/-- Lexicographic code-unit order on character lists: the relation JS
uses to compare strings (and the default array sort order). -/
def lexLtChars : List Char → List Char → Bool
  | [], [] => false
  | [], _ :: _ => true
  | _ :: _, [] => false
  | a :: as, b :: bs =>
    if charLt a b then true
    else if charLt b a then false
    else lexLtChars as bs

/-- JS template interpolation of a possibly-`undefined` string value:
`undefined` renders as the text `undefined`. -/
def jsTemplateStr (o : Option String) : String :=
  match o with
  | some s => s
  | none => "undefined"

/-! Tabular record parser (`parseCSVLine`, `createZoteroItemFromCsv`,
`parsePersonList`, `parseCsvToJson`). -/

/-- Worker for `parseCSVLine`: the source's character loop over the
line, with state `insideQuotes`, the current field `cur` and the
accumulated fields `acc`.  The source's branch order is kept: an
opening quote, a doubled quote inside a quoted field (which also
consumes the following character, the loop's extra increment), a
closing quote, an unquoted comma, and any other character. -/
def parseCSVLineAux : List Char → Bool → List Char → List String → List String
  | [], _, cur, acc => acc ++ [⟨cur⟩]
  | '"' :: '"' :: rest2, insideQuotes, cur, acc =>
    if !insideQuotes then parseCSVLineAux ('"' :: rest2) true cur acc
    else parseCSVLineAux rest2 insideQuotes (cur ++ ['"']) acc
  | '"' :: rest, insideQuotes, cur, acc =>
    if !insideQuotes then parseCSVLineAux rest true cur acc
    else parseCSVLineAux rest false cur acc
  | c :: rest, insideQuotes, cur, acc =>
    if c == ',' && !insideQuotes then
      parseCSVLineAux rest insideQuotes [] (acc ++ [⟨cur⟩])
    else parseCSVLineAux rest insideQuotes (cur ++ [c]) acc

/-- Embedding of `parseCSVLine` from the source. -/
def parseCSVLine (line : String) : List String :=
  parseCSVLineAux line.data false [] []

/-- The `record` object built at the top of `createZoteroItemFromCsv`:
`record[headers[i]] = values[i] ? values[i].replace(strip, '') : ''`.
Duplicate headers overwrite, so lookups must take the last binding. -/
def buildRecord : List String → List String → List (String × String)
  | [], _ => []
  | h :: hs, vs =>
    (h, match vs.head? with
        | some v => if v = "" then "" else filterXmlChars v
        | none => "") :: buildRecord hs vs.tail

/-- JS property read `record[key]`: `none` models `undefined` (the key
was never assigned, i.e. `key` is not a header).  The last binding wins,
as in JS assignment. -/
def recGet (record : List (String × String)) (key : String) : Option String :=
  record.reverse.lookup key

/-- JS truthiness of `record[key]`: `undefined` and the empty string
are falsy. -/
def recTruthy (record : List (String × String)) (key : String) : Bool :=
  match recGet record key with
  | some s => !(s == "")
  | none => false

/-- The value of `record[key]` where the source has established it is
truthy (defaulting, never reached, to the empty string). -/
def recStr (record : List (String × String)) (key : String) : String :=
  (recGet record key).getD ""

/-- Embedding of `parsePersonList` from the source. -/
def parsePersonList (personString : String) : List Person :=
  if personString = "" then []
  else
    let personParts :=
      if jsIncludes personString ';' then splitOnChar ';' personString
      else [personString]
    personParts.flatMap (fun part =>
      let trimmed := jsTrim part
      if trimmed = "" then []
      else if jsIncludes trimmed ',' then
        let parts := (splitOnChar ',' trimmed).map jsTrim
        [{ lastName := parts.headD "", firstName := parts.tail.headD "" }]
      else [{ lastName := trimmed, firstName := "" }])

/-- The item-type lookup of `createZoteroItemFromCsv`: the fixed JS
object lookup on the lowercased type with default `book`. -/
def csvItemType (ty : String) : String :=
  let tl := jsToLower ty
  if tl = "book" then "book"
  else if tl = "broadsheet" then "document"
  else "book"

/-- Embedding of `createZoteroItemFromCsv`.  The identifier counter is
threaded explicitly (the source uses the module-global `idCounter` and
`newId`, which formats the counter and increments it); the row consumes
two identifiers, one for the item and one for its attachment.  The
source reads `record.type.toLowerCase()` unconditionally, which throws
a `TypeError` when the input has no `type` column; that is the `.error`
case.  The source's sequence of conditional assignments to distinct
fields of `item` is modelled as one structure literal with conditional
field values. -/
def createZoteroItemFromCsv (idCounter : Nat) (headers values : List String) :
    Except String (String × ZoteroItem × Nat) :=
  let record := buildRecord headers values
  match recGet record "type" with
  | none => .error "TypeError: record.type is undefined"
  | some ty =>
    .ok (jsTemplateStr (recGet record "sn"),
      { id := toString idCounter
        itemType := csvItemType ty
        shortTitle :=
          if recTruthy record "title" then some (recStr record "title") else none
        language :=
          if recTruthy record "language" then some (recStr record "language") else none
        date :=
          if recTruthy record "year" then some (recStr record "year") else none
        url :=
          if recTruthy record "digitised_url" then some (recStr record "digitised_url")
          else none
        authors :=
          if recTruthy record "author" then
            some (parsePersonList (recStr record "author"))
          else none
        subjects :=
          if recTruthy record "classification" then
            some ((splitOnChar ';' (recStr record "classification")).map
              (fun s => "ustc_calssification:" ++ jsTrim s))
          else none
        archive :=
          if recTruthy record "copy_location" && recTruthy record "copy_shelfmark" then
            some (recStr record "copy_location")
          else none
        archiveLocation :=
          if recTruthy record "copy_location" && recTruthy record "copy_shelfmark" then
            some (recStr record "copy_shelfmark")
          else none
        callNumber :=
          if recTruthy record "copy_location" && recTruthy record "copy_shelfmark" then
            some (recStr record "copy_shelfmark")
          else none
        publisher := some
          { location := String.intercalate ", "
              (([recGet record "coutnry", recGet record "place",
                 recGet record "region"]).filterMap
                (fun o => match o with
                  | some s => if s = "" then none else some s
                  | none => none))
            name :=
              match recGet record "printer_name" with
              | none => ""
              | some pn =>
                if jsIncludes pn ';' then
                  String.intercalate ", " ((splitOnChar ';' pn).map jsTrim)
                else pn }
        extra := some (String.intercalate "\n"
          (([if recTruthy record "colophon" then
               "Colophon: " ++ recStr record "colophon" else "",
             if recTruthy record "colophon" then "Colophon source: ustc" else "",
             if recTruthy record "format" then
               "Format: " ++ recStr record "format" else "",
             if recTruthy record "heading" then
               "Heading: " ++ recStr record "heading" else "",
             if recTruthy record "imprint" then
               "Imprint: " ++ recStr record "imprint" else "",
             if recTruthy record "is_lost" then "Lost: true" else "",
             if recTruthy record "pagination" then
               "Pagination: " ++ recStr record "pagination" else "",
             if recTruthy record "signatures" then
               "Signatures: " ++ recStr record "signatures" else ""]).filter
            (fun s => s != "")))
        attachments := some [{
          id := toString (idCounter + 1)
          title := "USTC"
          url := some ("https://www.ustc.ac.uk/editions/"
            ++ jsTemplateStr (recGet record "sn"))
          linkMode := some "3" }] },
      idCounter + 2)

/-- JS `origIdToZoteroId[origId] = origIdToZoteroId[origId] || [];
origIdToZoteroId[origId].push(item.id)`: append to the existing group,
or create a new one at the end (JS object insertion order). -/
def pushOrig (m : List (String × List String)) (k v : String) :
    List (String × List String) :=
  if m.any (fun p => p.1 == k) then
    m.map (fun p => if p.1 == k then (p.1, p.2 ++ [v]) else p)
  else m ++ [(k, [v])]

/-- JS `items[item.id] = item`: overwrite an existing key in place or
append a new one. -/
def upsertItem (m : List (String × ZoteroItem)) (k : String) (it : ZoteroItem) :
    List (String × ZoteroItem) :=
  if m.any (fun p => p.1 == k) then
    m.map (fun p => if p.1 == k then (k, it) else p)
  else m ++ [(k, it)]

/-- The row loop of `parseCsvToJson` (`for (let i = 1; ...)`): skip
blank lines, skip rows whose field count disagrees with the header,
otherwise build the item, store it and record its original identifier.
A thrown `TypeError` aborts the loop. -/
def csvFold (headers : List String) :
    List String → Nat × List (String × ZoteroItem) × List (String × List String) →
    Except String (Nat × List (String × ZoteroItem) × List (String × List String))
  | [], st => .ok st
  | line :: rest, (idc, items, orig) =>
    if jsTrim line = "" then csvFold headers rest (idc, items, orig)
    else
      let values := parseCSVLine line
      if values.length != headers.length then csvFold headers rest (idc, items, orig)
      else
        match createZoteroItemFromCsv idc headers values with
        | .error e => .error e
        | .ok (origId, item, idc2) =>
          csvFold headers rest
            (idc2, upsertItem items item.id item, pushOrig orig origId item.id)

/-- The header row of `parseCsvToJson`: the first line split on commas,
each header trimmed. -/
def csvHeaders (csvContent : String) : List String :=
  (splitOnChar ',' ((splitOnChar '\n' csvContent).headD "")).map jsTrim

/-- The data lines of `parseCsvToJson`: every line after the first. -/
def csvDataLines (csvContent : String) : List String :=
  (splitOnChar '\n' csvContent).tail

/-- Embedding of `parseCsvToJson`, with the locale comparison
`localeCompare` abstracted as `lc` (negative, zero or positive).  The
source's `Object.values(items)` iterates integer-like keys in ascending
numeric order; the keys here are the synthesized identifiers, inserted
in ascending numeric order, so the association list's value order
coincides with it.  Groups of size one are deleted from the relations
table before returning. -/
def parseCsvToJson (lc : String → String → Int) (csvContent : String) :
    Except String ZoteroData :=
  let headers := csvHeaders csvContent
  match csvFold headers (csvDataLines csvContent) (1, [], []) with
  | .error e => .error e
  | .ok (_, items, orig) =>
    .ok { items := List.insertionSort (fun a b => lc a.id b.id ≤ 0)
            (items.map (fun p => p.2)),
          relations := orig.filter (fun p => p.2.length != 1) }

/-! RDF serializer (`convertJsonToRdf`, `processItem`, `addPeople`). -/

/-- The item-type element lookup of `processItem` (`itemTypeMap` with
default `bib:Document`). -/
def itemTypeTag (t : String) : String :=
  if t = "book" then "bib:Book"
  else if t = "journalArticle" then "bib:Article"
  else if t = "bookSection" then "bib:BookSection"
  else if t = "webpage" then "bib:Document"
  else if t = "attachment" then "z:Attachment"
  else if t = "note" then "bib:Memo"
  else "bib:Document"

/-- JS truthiness of an optional string field: `undefined` and the
empty string are falsy. -/
def truthy (o : Option String) : Bool :=
  !(o.getD "" == "")

/-- The source's `item.f && item.f.length > 0` guard on an optional
list field. -/
def hasItems {α : Type} (o : Option (List α)) : Bool :=
  !(o.getD []).isEmpty

/-- The person comparator of `processItem`:
`a.lastName.localeCompare(b.lastName) || a.firstName.localeCompare(b.firstName)`
(JS `||` keeps the first comparison unless it is zero). -/
def personCmp (lc : String → String → Int) (a b : Person) : Int :=
  let c := lc a.lastName b.lastName
  if c = 0 then lc a.firstName b.firstName else c

/-- JS `[...people].sort(comparator)` (stable, comparator consistent):
a stable sort by `comparator ≤ 0`. -/
def sortPersons (lc : String → String → Int) (l : List Person) : List Person :=
  List.insertionSort (fun a b => personCmp lc a b ≤ 0) l

/-- JS `[...strings].sort()`: the default sort compares code units;
on the BMP strings this program produces it is plain lexicographic
string order. -/
def jsSortStrings (l : List String) : List String :=
  List.insertionSort (fun a b => lexLtChars a.data b.data = true ∨ a = b) l

/-- JS `[...attachments].sort((a, b) => a.id.localeCompare(b.id))`. -/
def sortAttachments (lc : String → String → Int) (l : List Attachment) :
    List Attachment :=
  List.insertionSort (fun a b => lc a.id b.id ≤ 0) l

/-- JS `[...memos].sort((a, b) => a.id.localeCompare(b.id))`. -/
def sortMemos (lc : String → String → Int) (l : List Memo) : List Memo :=
  List.insertionSort (fun a b => lc a.id b.id ≤ 0) l

/-- One `rdf:li` person node of `addPeople`. -/
def personLiXml (p : Person) : String :=
  "\n                <rdf:li>\n                    <foaf:Person>\n                        <foaf:surname>"
    ++ escapeXml p.lastName
    ++ "</foaf:surname>\n                        <foaf:givenName>"
    ++ escapeXml p.firstName
    ++ "</foaf:givenName>\n                    </foaf:Person>\n                </rdf:li>"

/-- Embedding of `addPeople` from the source (the loop appending one
`rdf:li` per person, in list order). -/
def addPeople (people : List Person) (role : String) : String :=
  "\n        <" ++ role ++ ">\n            <rdf:Seq>"
    ++ String.join (people.map personLiXml)
    ++ "\n            </rdf:Seq>\n        </" ++ role ++ ">"

/-- The opening of an item node, including the always-emitted
`z:itemType` element; `item.id` and `item.itemType` are interpolated
verbatim (no `escapeXml`). -/
def itemOpen (item : ZoteroItem) : String :=
  "\n    <" ++ itemTypeTag item.itemType ++ " rdf:about=\"#item_" ++ item.id
    ++ "\">\n        <z:itemType>" ++ item.itemType ++ "</z:itemType>"

/-- The `dcterms:isPartOf` series block. -/
def seriesXml (s : Series) : String :=
  "\n        <dcterms:isPartOf>\n            <bib:Series>\n                <dc:title>"
    ++ escapeXml s.title ++ "</dc:title>"
    ++ (if truthy s.number then
          "\n                <dc:identifier>" ++ escapeXml (s.number.getD "")
            ++ "</dc:identifier>"
        else "")
    ++ "\n            </bib:Series>\n        </dcterms:isPartOf>"

/-- The `dc:publisher` block. -/
def publisherXml (p : Publisher) : String :=
  "\n        <dc:publisher>\n            <foaf:Organization>\n                <vcard:adr>\n                    <vcard:Address>\n                       <vcard:locality>"
    ++ escapeXml p.location
    ++ "</vcard:locality>\n                    </vcard:Address>\n                </vcard:adr>\n                <foaf:name>"
    ++ escapeXml p.name
    ++ "</foaf:name>\n            </foaf:Organization>\n        </dc:publisher>"

/-- The `dc:title` element. -/
def titleXml (t : String) : String :=
  "\n        <dc:title>" ++ escapeXml t ++ "</dc:title>"

/-- The `dcterms:abstract` element. -/
def abstractXml (t : String) : String :=
  "\n        <dcterms:abstract>" ++ escapeXml t ++ "</dcterms:abstract>"

/-- The `prism:volume` element. -/
def volumeXml (t : String) : String :=
  "\n        <prism:volume>" ++ escapeXml t ++ "</prism:volume>"

/-- The `z:numberOfVolumes` element. -/
def numberOfVolumesXml (t : String) : String :=
  "\n        <z:numberOfVolumes>" ++ escapeXml t ++ "</z:numberOfVolumes>"

/-- The `prism:edition` element. -/
def editionXml (t : String) : String :=
  "\n        <prism:edition>" ++ escapeXml t ++ "</prism:edition>"

/-- The `dc:date` element. -/
def dateXml (t : String) : String :=
  "\n        <dc:date>" ++ escapeXml t ++ "</dc:date>"

/-- The `z:numPages` element. -/
def numPagesXml (t : String) : String :=
  "\n        <z:numPages>" ++ escapeXml t ++ "</z:numPages>"

/-- The `z:language` element. -/
def languageXml (t : String) : String :=
  "\n        <z:language>" ++ escapeXml t ++ "</z:language>"

/-- The ISBN `dc:identifier` element. -/
def isbnXml (t : String) : String :=
  "\n        <dc:identifier>ISBN " ++ escapeXml t ++ "</dc:identifier>"

/-- The `z:shortTitle` element. -/
def shortTitleXml (t : String) : String :=
  "\n        <z:shortTitle>" ++ escapeXml t ++ "</z:shortTitle>"

/-- The URL `dc:identifier` block. -/
def urlXml (u : String) : String :=
  "\n        <dc:identifier>\n            <dcterms:URI><rdf:value>"
    ++ escapeXml u ++ "</rdf:value></dcterms:URI>\n        </dc:identifier>"

/-- The `dcterms:dateSubmitted` element. -/
def dateSubmittedXml (t : String) : String :=
  "\n        <dcterms:dateSubmitted>" ++ escapeXml t ++ "</dcterms:dateSubmitted>"

/-- The `z:archive` element. -/
def archiveXml (t : String) : String :=
  "\n        <z:archive>" ++ escapeXml t ++ "</z:archive>"

/-- The `dc:coverage` element (archive location). -/
def archiveLocationXml (t : String) : String :=
  "\n        <dc:coverage>" ++ escapeXml t ++ "</dc:coverage>"

/-- The `z:libraryCatalog` element. -/
def libraryCatalogXml (t : String) : String :=
  "\n        <z:libraryCatalog>" ++ escapeXml t ++ "</z:libraryCatalog>"

/-- The call-number `dc:subject` block. -/
def callNumberXml (t : String) : String :=
  "\n        <dc:subject>\n           <dcterms:LCC><rdf:value>"
    ++ escapeXml t ++ "</rdf:value></dcterms:LCC>\n        </dc:subject>"

/-- The `dc:rights` element. -/
def rightsXml (t : String) : String :=
  "\n        <dc:rights>" ++ escapeXml t ++ "</dc:rights>"

/-- The `dc:description` element (used for `extra` or `description`). -/
def descriptionXml (t : String) : String :=
  "\n        <dc:description>" ++ escapeXml t ++ "</dc:description>"

/-- One subject `dc:subject` element. -/
def subjectXml (s : String) : String :=
  "\n        <dc:subject>" ++ escapeXml s ++ "</dc:subject>"

/-- One `dcterms:isReferencedBy` reference; `ref` is interpolated
verbatim. -/
def refXml (r : String) : String :=
  "\n        <dcterms:isReferencedBy rdf:resource=\"#item_" ++ r ++ "\"/>"

/-- One attachment `link:link` reference; the attachment id is
interpolated verbatim. -/
def linkXml (a : Attachment) : String :=
  "\n        <link:link rdf:resource=\"#item_" ++ a.id ++ "\"/>"

/-- One sibling `z:Attachment` node. -/
def attachmentNodeXml (a : Attachment) : String :=
  "\n    <z:Attachment rdf:about=\"#item_" ++ a.id
    ++ "\">\n        <z:itemType>attachment</z:itemType>\n        <dc:title>"
    ++ escapeXml a.title ++ "</dc:title>"
    ++ (if truthy a.url then
          "\n        <dc:identifier>\n            <dcterms:URI>\n                <rdf:value>"
            ++ escapeXml (a.url.getD "")
            ++ "</rdf:value>\n            </dcterms:URI>\n        </dc:identifier>"
        else "")
    ++ (if truthy a.dateSubmitted then
          "\n        <dcterms:dateSubmitted>" ++ escapeXml (a.dateSubmitted.getD "")
            ++ "</dcterms:dateSubmitted>"
        else "")
    ++ (if truthy a.linkMode then
          "\n        <z:linkMode>" ++ escapeXml (a.linkMode.getD "") ++ "</z:linkMode>"
        else "")
    ++ (if truthy a.mimeType then
          "\n        <link:type>" ++ escapeXml (a.mimeType.getD "") ++ "</link:type>"
        else "")
    ++ "\n    </z:Attachment>"

/-- One sibling `bib:Memo` node. -/
def memoNodeXml (m : Memo) : String :=
  "\n    <bib:Memo rdf:about=\"#item_" ++ m.id
    ++ "\">\n        <rdf:value>" ++ escapeXml m.value ++ "</rdf:value>\n    </bib:Memo>"

/-- The closing tag of an item node. -/
def itemClose (item : ZoteroItem) : String :=
  "\n    </" ++ itemTypeTag item.itemType ++ ">"

/-- The source's guarded accumulation step
`if (cond) { itemXml += y }`. -/
def app (x : String) (c : Bool) (y : String) : String :=
  if c then x ++ y else x

/-- The source's two-way guarded accumulation step
`if (c1) { itemXml += y1 } else if (c2) { itemXml += y2 }`. -/
def app2 (x : String) (c1 : Bool) (y1 : String) (c2 : Bool) (y2 : String) : String :=
  if c1 then x ++ y1 else if c2 then x ++ y2 else x

/-- Embedding of `processItem` from the source: the `itemXml`
accumulator, appended to field by field in the source's statement
order. -/
def processItem (lc : String → String → Int) (item : ZoteroItem) : String :=
  let x := itemOpen item
  let x := app x item.series.isSome (seriesXml (item.series.getD { title := "" }))
  let x := app x item.publisher.isSome
    (publisherXml (item.publisher.getD { name := "", location := "" }))
  let x := app x (hasItems item.authors)
    (addPeople (sortPersons lc (item.authors.getD [])) "bib:authors")
  let x := app x (hasItems item.contributors)
    (addPeople (sortPersons lc (item.contributors.getD [])) "bib:contributors")
  let x := app x (hasItems item.editors)
    (addPeople (sortPersons lc (item.editors.getD [])) "bib:editors")
  let x := app x (hasItems item.seriesEditors)
    (addPeople (sortPersons lc (item.seriesEditors.getD [])) "z:seriesEditors")
  let x := app x (hasItems item.translators)
    (addPeople (sortPersons lc (item.translators.getD [])) "z:translators")
  let x := app x (truthy item.title) (titleXml (item.title.getD ""))
  let x := app x (truthy item.abstract) (abstractXml (item.abstract.getD ""))
  let x := app x (truthy item.volume) (volumeXml (item.volume.getD ""))
  let x := app x (truthy item.numberOfVolumes)
    (numberOfVolumesXml (item.numberOfVolumes.getD ""))
  let x := app x (truthy item.edition) (editionXml (item.edition.getD ""))
  let x := app x (truthy item.date) (dateXml (item.date.getD ""))
  let x := app x (truthy item.numPages) (numPagesXml (item.numPages.getD ""))
  let x := app x (truthy item.language) (languageXml (item.language.getD ""))
  let x := app x (truthy item.isbn) (isbnXml (item.isbn.getD ""))
  let x := app x (truthy item.shortTitle) (shortTitleXml (item.shortTitle.getD ""))
  let x := app x (truthy item.url) (urlXml (item.url.getD ""))
  let x := app x (truthy item.dateSubmitted)
    (dateSubmittedXml (item.dateSubmitted.getD ""))
  let x := app x (truthy item.archive) (archiveXml (item.archive.getD ""))
  let x := app x (truthy item.archiveLocation)
    (archiveLocationXml (item.archiveLocation.getD ""))
  let x := app x (truthy item.libraryCatalog)
    (libraryCatalogXml (item.libraryCatalog.getD ""))
  let x := app x (truthy item.callNumber) (callNumberXml (item.callNumber.getD ""))
  let x := app x (truthy item.rights) (rightsXml (item.rights.getD ""))
  let x := app2 x (truthy item.extra) (descriptionXml (item.extra.getD ""))
    (truthy item.description) (descriptionXml (item.description.getD ""))
  let x := app x (hasItems item.subjects)
    (String.join ((jsSortStrings (item.subjects.getD [])).map subjectXml))
  let x := app x (hasItems item.isReferencedBy)
    (String.join ((jsSortStrings (item.isReferencedBy.getD [])).map refXml))
  let x := app x (hasItems item.attachments)
    (String.join ((sortAttachments lc (item.attachments.getD [])).map linkXml))
  let x := x ++ itemClose item
  let x := app x (hasItems item.attachments)
    (String.join ((sortAttachments lc (item.attachments.getD [])).map attachmentNodeXml))
  let x := app x (hasItems item.memos)
    (String.join ((sortMemos lc (item.memos.getD [])).map memoNodeXml))
  x

/-- The fixed namespace header emitted by `convertJsonToRdf`. -/
def rdfHeader : String :=
  "<rdf:RDF\n xmlns:rdf=\"http://www.w3.org/1999/02/22-rdf-syntax-ns#\"\n xmlns:z=\"http://www.zotero.org/namespaces/export#\"\n xmlns:dcterms=\"http://purl.org/dc/terms/\"\n xmlns:bib=\"http://purl.org/net/biblio#\"\n xmlns:foaf=\"http://xmlns.com/foaf/0.1/\"\n xmlns:link=\"http://purl.org/rss/1.0/modules/link/\"\n xmlns:dc=\"http://purl.org/dc/elements/1.1/\"\n xmlns:prism=\"http://prismstandard.org/namespaces/1.2/basic/\"\n xmlns:vcard=\"http://nwalsh.com/rdf/vCard#\">"

/-- Embedding of `convertJsonToRdf` from the source: header, the items
sorted ascending by identifier, and the closing root tag. -/
def convertJsonToRdf (lc : String → String → Int) (jsonData : ZoteroData) : String :=
  let sortedItems :=
    List.insertionSort (fun a b => lc a.id b.id ≤ 0) jsonData.items
  rdfHeader ++ String.join (sortedItems.map (processItem lc)) ++ "\n</rdf:RDF>"

/-! Spec-side per-field emitters.  Each one produces the element for a
single field, or the empty string when the field is absent (for an
optional string, also when it is empty; for a list, also when it has no
entries).  The spec's fixed emission order is the list `fieldChunks`
below. -/

/-- Series emitter: nothing when the item has no series. -/
def seriesField (item : ZoteroItem) : String :=
  if item.series.isSome then seriesXml (item.series.getD { title := "" }) else ""

/-- Publisher emitter: nothing when the item has no publisher. -/
def publisherField (item : ZoteroItem) : String :=
  if item.publisher.isSome then
    publisherXml (item.publisher.getD { name := "", location := "" })
  else ""

/-- Authors emitter: nothing when the list is absent or empty. -/
def authorsField (lc : String → String → Int) (item : ZoteroItem) : String :=
  if hasItems item.authors then
    addPeople (sortPersons lc (item.authors.getD [])) "bib:authors"
  else ""

/-- Contributors emitter: nothing when the list is absent or empty. -/
def contributorsField (lc : String → String → Int) (item : ZoteroItem) : String :=
  if hasItems item.contributors then
    addPeople (sortPersons lc (item.contributors.getD [])) "bib:contributors"
  else ""

/-- Editors emitter: nothing when the list is absent or empty. -/
def editorsField (lc : String → String → Int) (item : ZoteroItem) : String :=
  if hasItems item.editors then
    addPeople (sortPersons lc (item.editors.getD [])) "bib:editors"
  else ""

/-- Series-editors emitter: nothing when the list is absent or empty. -/
def seriesEditorsField (lc : String → String → Int) (item : ZoteroItem) : String :=
  if hasItems item.seriesEditors then
    addPeople (sortPersons lc (item.seriesEditors.getD [])) "z:seriesEditors"
  else ""

/-- Translators emitter: nothing when the list is absent or empty. -/
def translatorsField (lc : String → String → Int) (item : ZoteroItem) : String :=
  if hasItems item.translators then
    addPeople (sortPersons lc (item.translators.getD [])) "z:translators"
  else ""

/-- Title emitter: nothing when absent or empty. -/
def titleField (item : ZoteroItem) : String :=
  if truthy item.title then titleXml (item.title.getD "") else ""

/-- Abstract emitter: nothing when absent or empty. -/
def abstractField (item : ZoteroItem) : String :=
  if truthy item.abstract then abstractXml (item.abstract.getD "") else ""

/-- Volume emitter: nothing when absent or empty. -/
def volumeField (item : ZoteroItem) : String :=
  if truthy item.volume then volumeXml (item.volume.getD "") else ""

/-- Number-of-volumes emitter: nothing when absent or empty. -/
def numberOfVolumesField (item : ZoteroItem) : String :=
  if truthy item.numberOfVolumes then
    numberOfVolumesXml (item.numberOfVolumes.getD "")
  else ""

/-- Edition emitter: nothing when absent or empty. -/
def editionField (item : ZoteroItem) : String :=
  if truthy item.edition then editionXml (item.edition.getD "") else ""

/-- Date emitter: nothing when absent or empty. -/
def dateField (item : ZoteroItem) : String :=
  if truthy item.date then dateXml (item.date.getD "") else ""

/-- Number-of-pages emitter: nothing when absent or empty. -/
def numPagesField (item : ZoteroItem) : String :=
  if truthy item.numPages then numPagesXml (item.numPages.getD "") else ""

/-- Language emitter: nothing when absent or empty. -/
def languageField (item : ZoteroItem) : String :=
  if truthy item.language then languageXml (item.language.getD "") else ""

/-- ISBN emitter: nothing when absent or empty. -/
def isbnField (item : ZoteroItem) : String :=
  if truthy item.isbn then isbnXml (item.isbn.getD "") else ""

/-- Short-title emitter: nothing when absent or empty. -/
def shortTitleField (item : ZoteroItem) : String :=
  if truthy item.shortTitle then shortTitleXml (item.shortTitle.getD "") else ""

/-- URL emitter: nothing when absent or empty. -/
def urlField (item : ZoteroItem) : String :=
  if truthy item.url then urlXml (item.url.getD "") else ""

/-- Submission-date emitter: nothing when absent or empty. -/
def dateSubmittedField (item : ZoteroItem) : String :=
  if truthy item.dateSubmitted then
    dateSubmittedXml (item.dateSubmitted.getD "")
  else ""

/-- Archive emitter: nothing when absent or empty. -/
def archiveField (item : ZoteroItem) : String :=
  if truthy item.archive then archiveXml (item.archive.getD "") else ""

/-- Archive-location emitter: nothing when absent or empty. -/
def archiveLocationField (item : ZoteroItem) : String :=
  if truthy item.archiveLocation then
    archiveLocationXml (item.archiveLocation.getD "")
  else ""

/-- Library-catalog emitter: nothing when absent or empty. -/
def libraryCatalogField (item : ZoteroItem) : String :=
  if truthy item.libraryCatalog then
    libraryCatalogXml (item.libraryCatalog.getD "")
  else ""

/-- Call-number emitter: nothing when absent or empty. -/
def callNumberField (item : ZoteroItem) : String :=
  if truthy item.callNumber then callNumberXml (item.callNumber.getD "") else ""

/-- Rights emitter: nothing when absent or empty. -/
def rightsField (item : ZoteroItem) : String :=
  if truthy item.rights then rightsXml (item.rights.getD "") else ""

/-- Extra-or-description emitter: `extra` takes precedence, then
`description`, else nothing. -/
def extraOrDescriptionField (item : ZoteroItem) : String :=
  if truthy item.extra then descriptionXml (item.extra.getD "")
  else if truthy item.description then descriptionXml (item.description.getD "")
  else ""

/-- Subjects emitter: one element per subject, alphabetically sorted;
nothing when absent or empty. -/
def subjectsField (item : ZoteroItem) : String :=
  if hasItems item.subjects then
    String.join ((jsSortStrings (item.subjects.getD [])).map subjectXml)
  else ""

/-- Reference-list emitter: one element per reference, alphabetically
sorted; nothing when absent or empty. -/
def isReferencedByField (item : ZoteroItem) : String :=
  if hasItems item.isReferencedBy then
    String.join ((jsSortStrings (item.isReferencedBy.getD [])).map refXml)
  else ""

/-- Attachment-links emitter: one `link:link` per attachment, sorted by
attachment id; nothing when absent or empty. -/
def attachmentLinksField (lc : String → String → Int) (item : ZoteroItem) : String :=
  if hasItems item.attachments then
    String.join ((sortAttachments lc (item.attachments.getD [])).map linkXml)
  else ""

/-- Sibling attachment nodes, emitted after the item's closing tag. -/
def attachmentNodesField (lc : String → String → Int) (item : ZoteroItem) : String :=
  if hasItems item.attachments then
    String.join ((sortAttachments lc (item.attachments.getD [])).map attachmentNodeXml)
  else ""

/-- Sibling memo nodes, emitted after the item's closing tag. -/
def memoNodesField (lc : String → String → Int) (item : ZoteroItem) : String :=
  if hasItems item.memos then
    String.join ((sortMemos lc (item.memos.getD [])).map memoNodeXml)
  else ""

/-- The fixed emission order of the spec (series, publisher, authors,
contributors, editors, series-editors, translators, title, abstract,
volume, numberOfVolumes, edition, date, numPages, language, isbn,
shortTitle, url, dateSubmitted, archive, archiveLocation,
libraryCatalog, callNumber, rights, extra-or-description, subjects,
isReferencedBy, attachment links), wrapped by the item's opening and
closing tags and followed by the sibling attachment and memo nodes. -/
def fieldChunks (lc : String → String → Int) (item : ZoteroItem) : List String :=
  [itemOpen item,
   seriesField item,
   publisherField item,
   authorsField lc item,
   contributorsField lc item,
   editorsField lc item,
   seriesEditorsField lc item,
   translatorsField lc item,
   titleField item,
   abstractField item,
   volumeField item,
   numberOfVolumesField item,
   editionField item,
   dateField item,
   numPagesField item,
   languageField item,
   isbnField item,
   shortTitleField item,
   urlField item,
   dateSubmittedField item,
   archiveField item,
   archiveLocationField item,
   libraryCatalogField item,
   callNumberField item,
   rightsField item,
   extraOrDescriptionField item,
   subjectsField item,
   isReferencedByField item,
   attachmentLinksField lc item,
   itemClose item,
   attachmentNodesField lc item,
   memoNodesField lc item]

/-! Further spec-side definitions used by the claims. -/

/-- The original identifier of a row (`record.sn`, the JS object key:
`undefined` becomes the key text `undefined`). -/
def origIdOf (headers values : List String) : String :=
  jsTemplateStr (recGet (buildRecord headers values) "sn")

/-- Spec-side grouping of synthesized item identifiers by original
identifier: walking the data lines exactly as the row loop does (blank
lines and rows with the wrong field count are skipped; every kept row
consumes two identifiers), collect the item identifiers of the rows
whose original identifier is `k`. -/
def groupFrom (headers : List String) (k : String) : Nat → List String → List String
  | _, [] => []
  | idc, line :: rest =>
    if jsTrim line = "" then groupFrom headers k idc rest
    else
      let values := parseCSVLine line
      if values.length != headers.length then groupFrom headers k idc rest
      else
        (if origIdOf headers values = k then [toString idc] else [])
          ++ groupFrom headers k (idc + 2) rest

/-- Combining a pre-existing group with newly collected members: a
group exists in the table exactly when at least one member was pushed. -/
def combineGroup (o : Option (List String)) (g : List String) :
    Option (List String) :=
  match o with
  | some l => some (l ++ g)
  | none => if g = [] then none else some g

/-- Every character of the string is an allowed XML character. -/
def allowedStr (s : String) : Bool :=
  s.data.all allowedXmlChar

/-- The strings of an item that `processItem` interpolates verbatim
(without `escapeXml`) consist of allowed XML characters only: the item
identifier, the item type, the reference targets and the attachment and
memo identifiers. -/
def rawSafe (item : ZoteroItem) : Bool :=
  allowedStr item.id && allowedStr item.itemType &&
  (item.isReferencedBy.getD []).all allowedStr &&
  (item.attachments.getD []).all (fun a => allowedStr a.id) &&
  (item.memos.getD []).all (fun m => allowedStr m.id)

/-- A concrete locale comparison used to instantiate the abstract
`localeCompare` parameter in witnesses: code-unit lexicographic string
order reported as a negative, zero or positive number. -/
def lcStr (a b : String) : Int :=
  if lexLtChars a.data b.data then -1 else if a == b then 0 else 1

/-- Spec-side order on persons: ascending by last name, ties broken by
first name, under the locale comparison `lc`. -/
def personLexLe (lc : String → String → Int) (a b : Person) : Prop :=
  lc a.lastName b.lastName < 0 ∨
    (lc a.lastName b.lastName = 0 ∧ lc a.firstName b.firstName ≤ 0)

/-- Person-list parsing as claim C7 words it: split on semicolons, drop
blank entries, and split an entry containing a comma around the FIRST
comma, so the first name is everything after the first comma. -/
def parsePersonListSpecC7 (s : String) : List Person :=
  (splitOnChar ';' s).flatMap (fun part =>
    let trimmed := jsTrim part
    if trimmed = "" then []
    else if jsIncludes trimmed ',' then
      match splitOnChar ',' trimmed with
      | [] => []
      | lastName :: rest =>
        [{ lastName := jsTrim lastName,
           firstName := jsTrim (String.intercalate "," rest) }]
    else [{ lastName := trimmed, firstName := "" }])

/-- Person-list parsing as the code actually behaves (the amended
claim): split on semicolons, drop blank entries, and for an entry
containing a comma take the FIRST TWO comma-separated segments
(trimmed) as last and first name, discarding the rest. -/
def parsePersonListAmended (s : String) : List Person :=
  (splitOnChar ';' s).flatMap (fun part =>
    let trimmed := jsTrim part
    if trimmed = "" then []
    else if jsIncludes trimmed ',' then
      let parts := (splitOnChar ',' trimmed).map jsTrim
      [{ lastName := parts.headD "", firstName := parts.tail.headD "" }]
    else [{ lastName := trimmed, firstName := "" }])

/-- Outcome of the top-level argument check. -/
inductive CliAction where
  | usage
  | run (inputPath : Option String)
deriving DecidableEq, Repr

/-- The top-level entry of the source: `process.argv` (which always
holds the runtime path and the script path before any user argument) is
checked with `process.argv.length < 2`, then `inputPath :=
process.argv[2]` (possibly `undefined`). -/
def cliEntry (argv : List String) : CliAction :=
  if argv.length < 2 then .usage else .run argv[2]?

/-- Embedding of `isCSVFile` from the source. -/
def isCSVFile (filePath : String) : Bool :=
  ".csv".data.isSuffixOf (jsToLower filePath).data

/-- The extension dispatch applied to the possibly-missing input path:
calling `isCSVFile(undefined)` throws (`filePath.toLowerCase()` on
`undefined`). -/
def dispatchInput (inputPath : Option String) : Except String Bool :=
  match inputPath with
  | none => .error "TypeError: filePath is undefined"
  | some p => .ok (isCSVFile p)

/-- The publisher location of a conversion result, for stating claims
about `createZoteroItemFromCsv`. -/
def pubLocOf (r : Except String (String × ZoteroItem × Nat)) : Option String :=
  match r with
  | .ok (_, it, _) => it.publisher.map (fun p => p.location)
  | .error _ => none

/-! Concrete inputs used to instantiate the theorems. -/

/-- An item whose `itemType` holds an ampersand. -/
def itemAmp : ZoteroItem := { id := "1", itemType := "a&b" }

/-- An item with no optional fields. -/
def itemBare : ZoteroItem := { id := "1", itemType := "book" }

/-- An item with raw-safe identifiers and an adversarial title. -/
def itemSafe : ZoteroItem :=
  { id := "1", itemType := "book", title := some "T<i>&'x" }

/-- A person list out of order, with a last-name tie. -/
def peopleSample : List Person :=
  [{ firstName := "Zoe", lastName := "B" },
   { firstName := "Al", lastName := "B" },
   { firstName := "Cy", lastName := "A" }]

/-- An item carrying `peopleSample` as its authors. -/
def itemPeople : ZoteroItem :=
  { id := "1", itemType := "book", authors := some peopleSample }

/-- A collection holding `itemSafe` only. -/
def dataSafe : ZoteroData := { items := [itemSafe], relations := [] }

/-- A tabular input with a duplicated original identifier. -/
def csvDup : String := "sn,type\n42,book\n42,book\n7,book"

/-- The parse result of `csvDup` (defaulting, never reached, to the
empty collection). -/
def dataDup : ZoteroData :=
  match parseCsvToJson lcStr csvDup with
  | .ok d => d
  | .error _ => { items := [], relations := [] }

/-- The item built from a row whose `type` and `sn` fields are empty
(defaulting, never reached, to a bare item). -/
def itemEmptyRow : ZoteroItem :=
  match createZoteroItemFromCsv 1 ["type", "sn"] ["", ""] with
  | .ok (_, it, _) => it
  | .error _ => { id := "", itemType := "" }

deriving instance DecidableEq for Except

theorem app_eq_append (x : String) (c : Bool) (y : String) :
    app x c y = x ++ (if c then y else "") := by
  cases c <;> simp [app]

theorem app2_eq_append (x : String) (c1 : Bool) (y1 : String) (c2 : Bool)
    (y2 : String) :
    app2 x c1 y1 c2 y2 = x ++ (if c1 then y1 else if c2 then y2 else "") := by
  cases c1 <;> cases c2 <;> simp [app2]

/-- Decomposition of `processItem` into the spec's ordered field
chunks. -/
theorem processItem_eq_join (lc : String → String → Int) (item : ZoteroItem) :
    processItem lc item = String.join (fieldChunks lc item) := by
  simp only [processItem, app_eq_append, app2_eq_append, fieldChunks, String.join,
    List.foldl, seriesField, publisherField, authorsField, contributorsField,
    editorsField, seriesEditorsField, translatorsField, titleField, abstractField,
    volumeField, numberOfVolumesField, editionField, dateField, numPagesField,
    languageField, isbnField, shortTitleField, urlField, dateSubmittedField,
    archiveField, archiveLocationField, libraryCatalogField, callNumberField,
    rightsField, extraOrDescriptionField, subjectsField, isReferencedByField,
    attachmentLinksField, attachmentNodesField, memoNodesField,
    String.empty_append]

/-! Helper lemmas about escaping. -/

theorem escapeXml_eq_spec (s : String) : escapeXml s = escapeXmlSpec s := by
  by_cases h : s = ""
  · subst h; rfl
  · show (if s = "" then "" else _) = _
    rw [if_neg h]
    have key : ∀ l : List Char,
        ((((((l.filter allowedXmlChar).flatMap
            (fun d => if d = '&' then "&amp;".data else [d])).flatMap
            (fun d => if d = '<' then "&lt;".data else [d])).flatMap
            (fun d => if d = '>' then "&gt;".data else [d])).flatMap
            (fun d => if d = '"' then "&quot;".data else [d])).flatMap
            (fun d => if d = '\'' then "&apos;".data else [d]))
          = l.flatMap escapeXmlCharSpec := by
      intro l
      induction l with
      | nil => rfl
      | cons c t ih =>
        by_cases hc : allowedXmlChar c
        · simp only [List.filter_cons, hc, if_true, List.flatMap_cons,
            List.flatMap_append]
          rw [ih]
          congr 1
          by_cases h1 : c = '&'
          · subst h1; rfl
          · by_cases h2 : c = '<'
            · subst h2; rfl
            · by_cases h3 : c = '>'
              · subst h3; rfl
              · by_cases h4 : c = '"'
                · subst h4; rfl
                · by_cases h5 : c = '\''
                  · subst h5; rfl
                  · simp [escapeXmlCharSpec, h1, h2, h3, h4, h5, hc]
        · simp only [List.filter_cons, hc, Bool.false_eq_true, if_false]
          rw [ih]
          simp [escapeXmlCharSpec, hc]
    show replaceChar '\'' "&apos;" _ = _
    apply congrArg String.mk
    exact key s.data

/-! Helper lemmas about `String.join` and the allowed-character
predicate. -/

theorem foldl_append_shift (l : List String) (x : String) :
    l.foldl (· ++ ·) x = x ++ l.foldl (· ++ ·) "" := by
  induction l generalizing x with
  | nil => simp [List.foldl, String.append_empty]
  | cons a t ih =>
    simp only [List.foldl]
    rw [ih (x ++ a), ih ("" ++ a), String.empty_append, String.append_assoc]

theorem join_cons (a : String) (t : List String) :
    String.join (a :: t) = a ++ String.join t := by
  simp only [String.join, List.foldl]
  rw [foldl_append_shift, String.empty_append]

theorem join_append (l₁ l₂ : List String) :
    String.join (l₁ ++ l₂) = String.join l₁ ++ String.join l₂ := by
  induction l₁ with
  | nil => simp [String.join, String.empty_append]
  | cons a t ih =>
    rw [List.cons_append, join_cons, join_cons, ih, String.append_assoc]

@[simp] theorem allowedStr_append (a b : String) :
    allowedStr (a ++ b) = (allowedStr a && allowedStr b) := by
  simp [allowedStr, String.data_append, List.all_append]

theorem mem_escapeXmlCharSpec_allowed {c d : Char}
    (hd : d ∈ escapeXmlCharSpec c) : allowedXmlChar d = true := by
  unfold escapeXmlCharSpec at hd
  split_ifs at hd with h1 h2 h3 h4 h5 h6
  · simp at hd
  · simp at hd; rcases hd with rfl | rfl | rfl | rfl | rfl <;> decide
  · simp at hd; rcases hd with rfl | rfl | rfl | rfl <;> decide
  · simp at hd; rcases hd with rfl | rfl | rfl | rfl <;> decide
  · simp at hd; rcases hd with rfl | rfl | rfl | rfl | rfl | rfl <;> decide
  · simp at hd; rcases hd with rfl | rfl | rfl | rfl | rfl | rfl <;> decide
  · simp at hd; subst hd; simpa using h1

@[simp] theorem allowedStr_escapeXml (s : String) :
    allowedStr (escapeXml s) = true := by
  rw [escapeXml_eq_spec]
  simp only [escapeXmlSpec, allowedStr, List.all_eq_true]
  intro d hd
  simp only [List.mem_flatMap] at hd
  obtain ⟨c, _, hc⟩ := hd
  exact mem_escapeXmlCharSpec_allowed hc

theorem allowedStr_join {l : List String} (h : ∀ s ∈ l, allowedStr s = true) :
    allowedStr (String.join l) = true := by
  induction l with
  | nil => rfl
  | cons a t ih =>
    rw [join_cons, allowedStr_append, h a (List.mem_cons_self a t),
      ih (fun s hs => h s (List.mem_cons_of_mem a hs))]
    rfl

/-! Allowed characters in every serializer chunk. -/

@[simp] theorem allowedStr_itemTypeTag (t : String) :
    allowedStr (itemTypeTag t) = true := by
  unfold itemTypeTag
  split_ifs <;> decide

theorem allowedStr_personLiXml (p : Person) :
    allowedStr (personLiXml p) = true := by
  simp [personLiXml]
  decide

theorem allowedStr_addPeople (people : List Person) (role : String)
    (hrole : allowedStr role = true) :
    allowedStr (addPeople people role) = true := by
  have hj : allowedStr (String.join (people.map personLiXml)) = true := by
    apply allowedStr_join
    intro s hs
    simp only [List.mem_map] at hs
    obtain ⟨p, _, rfl⟩ := hs
    exact allowedStr_personLiXml p
  simp [addPeople, hj, hrole]
  decide

theorem allowedStr_itemOpen (item : ZoteroItem)
    (hid : allowedStr item.id = true) (hty : allowedStr item.itemType = true) :
    allowedStr (itemOpen item) = true := by
  simp [itemOpen, hid, hty]
  decide

theorem allowedStr_itemClose (item : ZoteroItem) :
    allowedStr (itemClose item) = true := by
  simp [itemClose]
  decide

theorem allowedStr_seriesXml (s : Series) :
    allowedStr (seriesXml s) = true := by
  by_cases h : truthy s.number = true <;> simp [seriesXml, h] <;> decide

theorem allowedStr_publisherXml (p : Publisher) :
    allowedStr (publisherXml p) = true := by
  simp [publisherXml]
  decide

theorem allowedStr_subjectXml (s : String) :
    allowedStr (subjectXml s) = true := by
  simp [subjectXml]
  decide

theorem allowedStr_refXml (r : String) (h : allowedStr r = true) :
    allowedStr (refXml r) = true := by
  simp [refXml, h]
  decide

theorem allowedStr_linkXml (a : Attachment) (h : allowedStr a.id = true) :
    allowedStr (linkXml a) = true := by
  simp [linkXml, h]
  decide

theorem allowedStr_attachmentNodeXml (a : Attachment)
    (h : allowedStr a.id = true) :
    allowedStr (attachmentNodeXml a) = true := by
  by_cases h1 : truthy a.url = true <;>
    by_cases h2 : truthy a.dateSubmitted = true <;>
    by_cases h3 : truthy a.linkMode = true <;>
    by_cases h4 : truthy a.mimeType = true <;>
    simp [attachmentNodeXml, h, h1, h2, h3, h4] <;> decide

theorem allowedStr_memoNodeXml (m : Memo) (h : allowedStr m.id = true) :
    allowedStr (memoNodeXml m) = true := by
  simp [memoNodeXml, h]
  decide

/-! Allowed characters in every field emitter, under the raw-safety
hypotheses for the verbatim-interpolated strings. -/

theorem allowedStr_of_if (c : Bool) (y : String) (h : allowedStr y = true) :
    allowedStr (if c then y else "") = true := by
  cases c
  · rfl
  · simpa using h

theorem allowedStr_seriesField (item : ZoteroItem) :
    allowedStr (seriesField item) = true :=
  allowedStr_of_if _ _ (allowedStr_seriesXml _)

theorem allowedStr_publisherField (item : ZoteroItem) :
    allowedStr (publisherField item) = true :=
  allowedStr_of_if _ _ (allowedStr_publisherXml _)

theorem allowedStr_peopleField (lc : String → String → Int)
    (o : Option (List Person)) (role : String) (hrole : allowedStr role = true) :
    allowedStr (if hasItems o then addPeople (sortPersons lc (o.getD [])) role
      else "") = true :=
  allowedStr_of_if _ _ (allowedStr_addPeople _ _ hrole)

theorem allowedStr_subjectsField (item : ZoteroItem) :
    allowedStr (subjectsField item) = true := by
  apply allowedStr_of_if
  apply allowedStr_join
  intro s hs
  simp only [List.mem_map] at hs
  obtain ⟨x, _, rfl⟩ := hs
  exact allowedStr_subjectXml x

theorem allowedStr_isReferencedByField (item : ZoteroItem)
    (h : (item.isReferencedBy.getD []).all allowedStr = true) :
    allowedStr (isReferencedByField item) = true := by
  apply allowedStr_of_if
  apply allowedStr_join
  intro s hs
  simp only [List.mem_map] at hs
  obtain ⟨x, hx, rfl⟩ := hs
  rw [jsSortStrings, List.mem_insertionSort] at hx
  exact allowedStr_refXml x (by simpa using List.all_eq_true.mp h x hx)

theorem allowedStr_attachmentLinksField (lc : String → String → Int)
    (item : ZoteroItem)
    (h : (item.attachments.getD []).all (fun a => allowedStr a.id) = true) :
    allowedStr (attachmentLinksField lc item) = true := by
  apply allowedStr_of_if
  apply allowedStr_join
  intro s hs
  simp only [List.mem_map] at hs
  obtain ⟨x, hx, rfl⟩ := hs
  rw [sortAttachments, List.mem_insertionSort] at hx
  exact allowedStr_linkXml x (by simpa using List.all_eq_true.mp h x hx)

theorem allowedStr_attachmentNodesField (lc : String → String → Int)
    (item : ZoteroItem)
    (h : (item.attachments.getD []).all (fun a => allowedStr a.id) = true) :
    allowedStr (attachmentNodesField lc item) = true := by
  apply allowedStr_of_if
  apply allowedStr_join
  intro s hs
  simp only [List.mem_map] at hs
  obtain ⟨x, hx, rfl⟩ := hs
  rw [sortAttachments, List.mem_insertionSort] at hx
  exact allowedStr_attachmentNodeXml x (by simpa using List.all_eq_true.mp h x hx)

theorem allowedStr_memoNodesField (lc : String → String → Int)
    (item : ZoteroItem)
    (h : (item.memos.getD []).all (fun m => allowedStr m.id) = true) :
    allowedStr (memoNodesField lc item) = true := by
  apply allowedStr_of_if
  apply allowedStr_join
  intro s hs
  simp only [List.mem_map] at hs
  obtain ⟨x, hx, rfl⟩ := hs
  rw [sortMemos, List.mem_insertionSort] at hx
  exact allowedStr_memoNodeXml x (by simpa using List.all_eq_true.mp h x hx)

theorem allowedStr_processItem (lc : String → String → Int) (item : ZoteroItem)
    (h : rawSafe item = true) : allowedStr (processItem lc item) = true := by
  simp only [rawSafe, Bool.and_eq_true] at h
  obtain ⟨⟨⟨⟨hid, hty⟩, hrefs⟩, hatts⟩, hmemos⟩ := h
  rw [processItem_eq_join]
  apply allowedStr_join
  intro s hs
  simp only [fieldChunks, List.mem_cons, List.not_mem_nil, or_false] at hs
  rcases hs with rfl | rfl | rfl | rfl | rfl | rfl | rfl | rfl | rfl | rfl | rfl
    | rfl | rfl | rfl | rfl | rfl | rfl | rfl | rfl | rfl | rfl | rfl | rfl
    | rfl | rfl | rfl | rfl | rfl | rfl | rfl | rfl | rfl
  · exact allowedStr_itemOpen item hid hty
  · exact allowedStr_seriesField item
  · exact allowedStr_publisherField item
  · exact allowedStr_peopleField lc item.authors "bib:authors" (by decide)
  · exact allowedStr_peopleField lc item.contributors "bib:contributors" (by decide)
  · exact allowedStr_peopleField lc item.editors "bib:editors" (by decide)
  · exact allowedStr_peopleField lc item.seriesEditors "z:seriesEditors" (by decide)
  · exact allowedStr_peopleField lc item.translators "z:translators" (by decide)
  · exact allowedStr_of_if _ _ (by simp [titleXml]; decide)
  · exact allowedStr_of_if _ _ (by simp [abstractXml]; decide)
  · exact allowedStr_of_if _ _ (by simp [volumeXml]; decide)
  · exact allowedStr_of_if _ _ (by simp [numberOfVolumesXml]; decide)
  · exact allowedStr_of_if _ _ (by simp [editionXml]; decide)
  · exact allowedStr_of_if _ _ (by simp [dateXml]; decide)
  · exact allowedStr_of_if _ _ (by simp [numPagesXml]; decide)
  · exact allowedStr_of_if _ _ (by simp [languageXml]; decide)
  · exact allowedStr_of_if _ _ (by simp [isbnXml]; decide)
  · exact allowedStr_of_if _ _ (by simp [shortTitleXml]; decide)
  · exact allowedStr_of_if _ _ (by simp [urlXml]; decide)
  · exact allowedStr_of_if _ _ (by simp [dateSubmittedXml]; decide)
  · exact allowedStr_of_if _ _ (by simp [archiveXml]; decide)
  · exact allowedStr_of_if _ _ (by simp [archiveLocationXml]; decide)
  · exact allowedStr_of_if _ _ (by simp [libraryCatalogXml]; decide)
  · exact allowedStr_of_if _ _ (by simp [callNumberXml]; decide)
  · exact allowedStr_of_if _ _ (by simp [rightsXml]; decide)
  · show allowedStr (extraOrDescriptionField item) = true
    unfold extraOrDescriptionField
    split_ifs <;> first
      | rfl
      | (simp [descriptionXml]; decide)
  · exact allowedStr_subjectsField item
  · exact allowedStr_isReferencedByField item hrefs
  · exact allowedStr_attachmentLinksField lc item hatts
  · exact allowedStr_itemClose item
  · exact allowedStr_attachmentNodesField lc item hatts
  · exact allowedStr_memoNodesField lc item hmemos

theorem allowedStr_convertJsonToRdf (lc : String → String → Int)
    (data : ZoteroData) (h : data.items.all rawSafe = true) :
    allowedStr (convertJsonToRdf lc data) = true := by
  unfold convertJsonToRdf
  rw [allowedStr_append, allowedStr_append]
  have hH : allowedStr rdfHeader = true := by decide
  have hF : allowedStr "\n</rdf:RDF>" = true := by decide
  have hJ : allowedStr (String.join
      ((List.insertionSort (fun a b => lc a.id b.id ≤ 0) data.items).map
        (processItem lc))) = true := by
    apply allowedStr_join
    intro s hs
    simp only [List.mem_map] at hs
    obtain ⟨it, hit, rfl⟩ := hs
    rw [List.mem_insertionSort] at hit
    exact allowedStr_processItem lc it (List.all_eq_true.mp h it hit)
  rw [hH, hF, hJ]
  rfl

/-! Claim theorems. -/

/-- Claim C1, counterexample: the serializer does NOT pass every field
value through the XML escaping — `itemType` is interpolated verbatim.
For the item with identifier `1` and item type `a&b`, the emitted
`z:itemType` element contains the raw text `a&b` (whose escaped form
would be `a&amp;b`), so the output of `processItem` contains an
unescaped ampersand and the escaped form appears nowhere. -/
theorem C1_counterexample :
    escapeXml "a&b" = "a&amp;b"
    ∧ List.IsInfix "<z:itemType>a&b</z:itemType>".data
        (processItem lcStr itemAmp).data
    ∧ ¬ List.IsInfix "<z:itemType>a&amp;b</z:itemType>".data
        (processItem lcStr itemAmp).data :=
  ⟨by decide, by decide, by decide⟩

/-- Claim C1, amended: every field value except `itemType` and the
identifiers (item id, `isReferencedBy` targets, attachment and memo
ids) passes through `escapeXml`, whose output consists of allowed XML
characters only; the exempted strings are interpolated verbatim, so the
serializer output is guaranteed to consist of allowed XML characters
exactly when those verbatim strings do (`rawSafe`). -/
theorem C1_amended (lc : String → String → Int) (data : ZoteroData)
    (h : data.items.all rawSafe = true) :
    allowedStr (convertJsonToRdf lc data) = true
    ∧ ∀ s, allowedStr (escapeXml s) = true :=
  ⟨allowedStr_convertJsonToRdf lc data h, fun s => allowedStr_escapeXml s⟩

/-- Witness for the amended claim C1 at a concrete collection whose one
item has safe identifiers and an adversarial title. -/
theorem C1_witness : allowedStr (convertJsonToRdf lcStr dataSafe) = true :=
  (C1_amended lcStr dataSafe (by decide)).1

/-- Claim C2: `escapeXml` equals the spec-side per-character escaping —
strip the characters outside the allowed XML ranges, replace each of
the five special characters by its entity, leave every other character
unaltered — and on the concrete string holding the five special
characters interleaved with disallowed control characters it returns
exactly the five entities. -/
theorem C2_escape_correct :
    (∀ s, escapeXml s = escapeXmlSpec s)
    ∧ escapeXml "\x00&\x01<\x0B>\x0C\"\x0E'" = "&amp;&lt;&gt;&quot;&apos;" :=
  ⟨escapeXml_eq_spec, by decide⟩

/-- Claim C3: `processItem` emits exactly the spec's fixed field order
(the chunk list `fieldChunks`: series, publisher, authors,
contributors, editors, series-editors, translators, title, abstract,
volume, numberOfVolumes, edition, date, numPages, language, isbn,
shortTitle, url, dateSubmitted, archive, archiveLocation,
libraryCatalog, callNumber, rights, extra-or-description, subjects,
isReferencedBy, attachment links), and a field that is absent — for a
string field also when empty, for a list field also when it has no
entries — contributes no element. -/
theorem C3_field_order (lc : String → String → Int) (item : ZoteroItem) :
    processItem lc item = String.join (fieldChunks lc item)
    ∧ (item.series = none → seriesField item = "")
    ∧ (item.publisher = none → publisherField item = "")
    ∧ (item.authors.getD [] = [] → authorsField lc item = "")
    ∧ (item.contributors.getD [] = [] → contributorsField lc item = "")
    ∧ (item.editors.getD [] = [] → editorsField lc item = "")
    ∧ (item.seriesEditors.getD [] = [] → seriesEditorsField lc item = "")
    ∧ (item.translators.getD [] = [] → translatorsField lc item = "")
    ∧ (item.title.getD "" = "" → titleField item = "")
    ∧ (item.abstract.getD "" = "" → abstractField item = "")
    ∧ (item.volume.getD "" = "" → volumeField item = "")
    ∧ (item.numberOfVolumes.getD "" = "" → numberOfVolumesField item = "")
    ∧ (item.edition.getD "" = "" → editionField item = "")
    ∧ (item.date.getD "" = "" → dateField item = "")
    ∧ (item.numPages.getD "" = "" → numPagesField item = "")
    ∧ (item.language.getD "" = "" → languageField item = "")
    ∧ (item.isbn.getD "" = "" → isbnField item = "")
    ∧ (item.shortTitle.getD "" = "" → shortTitleField item = "")
    ∧ (item.url.getD "" = "" → urlField item = "")
    ∧ (item.dateSubmitted.getD "" = "" → dateSubmittedField item = "")
    ∧ (item.archive.getD "" = "" → archiveField item = "")
    ∧ (item.archiveLocation.getD "" = "" → archiveLocationField item = "")
    ∧ (item.libraryCatalog.getD "" = "" → libraryCatalogField item = "")
    ∧ (item.callNumber.getD "" = "" → callNumberField item = "")
    ∧ (item.rights.getD "" = "" → rightsField item = "")
    ∧ (item.extra.getD "" = "" → item.description.getD "" = "" →
        extraOrDescriptionField item = "")
    ∧ (item.subjects.getD [] = [] → subjectsField item = "")
    ∧ (item.isReferencedBy.getD [] = [] → isReferencedByField item = "")
    ∧ (item.attachments.getD [] = [] → attachmentLinksField lc item = ""
        ∧ attachmentNodesField lc item = "")
    ∧ (item.memos.getD [] = [] → memoNodesField lc item = "") :=
  ⟨processItem_eq_join lc item,
   fun h => by simp [seriesField, h],
   fun h => by simp [publisherField, h],
   fun h => by simp [authorsField, hasItems, h],
   fun h => by simp [contributorsField, hasItems, h],
   fun h => by simp [editorsField, hasItems, h],
   fun h => by simp [seriesEditorsField, hasItems, h],
   fun h => by simp [translatorsField, hasItems, h],
   fun h => by simp [titleField, truthy, h],
   fun h => by simp [abstractField, truthy, h],
   fun h => by simp [volumeField, truthy, h],
   fun h => by simp [numberOfVolumesField, truthy, h],
   fun h => by simp [editionField, truthy, h],
   fun h => by simp [dateField, truthy, h],
   fun h => by simp [numPagesField, truthy, h],
   fun h => by simp [languageField, truthy, h],
   fun h => by simp [isbnField, truthy, h],
   fun h => by simp [shortTitleField, truthy, h],
   fun h => by simp [urlField, truthy, h],
   fun h => by simp [dateSubmittedField, truthy, h],
   fun h => by simp [archiveField, truthy, h],
   fun h => by simp [archiveLocationField, truthy, h],
   fun h => by simp [libraryCatalogField, truthy, h],
   fun h => by simp [callNumberField, truthy, h],
   fun h => by simp [rightsField, truthy, h],
   fun h1 h2 => by simp [extraOrDescriptionField, truthy, h1, h2],
   fun h => by simp [subjectsField, hasItems, h],
   fun h => by simp [isReferencedByField, hasItems, h],
   fun h => by constructor <;>
     simp [attachmentLinksField, attachmentNodesField, hasItems, h],
   fun h => by simp [memoNodesField, hasItems, h]⟩

/-- Witness for claim C3 at the bare item: the decomposition holds and
the absent series and publisher emit nothing. -/
theorem C3_witness :
    processItem lcStr itemBare = String.join (fieldChunks lcStr itemBare)
    ∧ seriesField itemBare = "" ∧ publisherField itemBare = "" := by
  have h := C3_field_order lcStr itemBare
  exact ⟨h.1, h.2.1 rfl, h.2.2.1 rfl⟩

/-! Record lookup facts. -/

theorem buildRecord_keys (headers values : List String) :
    (buildRecord headers values).map Prod.fst = headers := by
  induction headers generalizing values with
  | nil => rfl
  | cons h hs ih => simp [buildRecord, ih]

theorem recGet_eq_none_iff (headers values : List String) (k : String) :
    recGet (buildRecord headers values) k = none ↔ k ∉ headers := by
  rw [recGet, List.lookup_eq_none_iff]
  constructor
  · intro h hk
    rw [← buildRecord_keys headers values] at hk
    obtain ⟨p, hp, hpk⟩ := List.mem_map.mp hk
    have := h p (List.mem_reverse.mpr hp)
    simp [← hpk] at this
  · intro h p hp
    have hk : p.1 ∈ headers := by
      rw [← buildRecord_keys headers values]
      exact List.mem_map_of_mem Prod.fst (List.mem_reverse.mp hp)
    simp only [bne_iff_ne, ne_eq]
    intro hkp
    exact h (hkp ▸ hk)

/-- Claim C6, counterexample: a row of an input with no `type` column
does not produce an item with `itemType` defaulting to `book`; the read
of `record.type` throws and the whole conversion fails. -/
theorem C6_counterexample :
    createZoteroItemFromCsv 1 ["sn", "title"] ["1", "Foo"]
        = .error "TypeError: record.type is undefined"
    ∧ parseCsvToJson lcStr "sn,title\n1,Foo"
        = .error "TypeError: record.type is undefined" :=
  ⟨by decide, by decide⟩

/-- Claim C6, amended: when the input has a `type` column, the item
type is the fixed lookup on the lowercased value — `document` exactly
for `broadsheet`, otherwise `book` (also for empty or unrecognized
values); when the input has no `type` column at all, the conversion
throws a `TypeError` instead of defaulting. -/
theorem C6_amended (idCounter : Nat) (headers values : List String) :
    ("type" ∉ headers →
      createZoteroItemFromCsv idCounter headers values
        = .error "TypeError: record.type is undefined")
    ∧ (∀ origId item n,
        createZoteroItemFromCsv idCounter headers values = .ok (origId, item, n) →
        (item.itemType = "book" ∨ item.itemType = "document")
        ∧ (item.itemType = "document" ↔
            jsToLower ((recGet (buildRecord headers values) "type").getD "")
              = "broadsheet")) := by
  constructor
  · intro h
    simp only [createZoteroItemFromCsv,
      (recGet_eq_none_iff headers values "type").mpr h]
  · intro origId item n h
    unfold createZoteroItemFromCsv at h
    cases hty : recGet (buildRecord headers values) "type" with
    | none =>
      simp only [hty] at h
      exact Except.noConfusion h
    | some ty =>
      simp only [hty, Except.ok.injEq, Prod.mk.injEq] at h
      obtain ⟨-, hit, -⟩ := h
      subst hit
      simp only [Option.getD_some, csvItemType]
      split_ifs with h1 h2
      · exact ⟨Or.inl rfl, by rw [h1]; constructor <;> intro hx <;> simp_all⟩
      · exact ⟨Or.inr rfl, by simp [h2]⟩
      · exact ⟨Or.inl rfl, by constructor <;> intro hx <;> simp_all⟩

/-- Witness for the amended claim C6: an input without a `type` column
throws, and the empty-valued `type` column yields item type `book`. -/
theorem C6_witness :
    createZoteroItemFromCsv 1 ["sn"] ["42"]
        = .error "TypeError: record.type is undefined"
    ∧ (itemEmptyRow.itemType = "book" ∨ itemEmptyRow.itemType = "document") := by
  refine ⟨(C6_amended 1 ["sn"] ["42"]).1 (by decide), ?_⟩
  exact ((C6_amended 1 ["type", "sn"] ["", ""]).2 "" itemEmptyRow 3 (by decide)).1

/-! Person-list parsing. -/

theorem splitCharAux_no_sep (sep : Char) (l cur : List Char) (h : sep ∉ l) :
    splitCharAux sep l cur = [⟨cur ++ l⟩] := by
  induction l generalizing cur with
  | nil => simp [splitCharAux]
  | cons c rest ih =>
    have hc : ¬(c == sep) = true := by
      simp only [beq_iff_eq]
      rintro rfl
      exact h (List.mem_cons_self c rest)
    rw [splitCharAux, if_neg hc, ih (cur ++ [c]) (fun hm => h (List.mem_cons_of_mem c hm))]
    simp

theorem splitOnChar_no_sep (sep : Char) (s : String)
    (h : jsIncludes s sep = false) : splitOnChar sep s = [s] := by
  unfold splitOnChar
  rw [splitCharAux_no_sep sep s.data []]
  · rfl
  · simp only [jsIncludes, List.contains, List.elem_eq_mem,
      decide_eq_false_iff_not] at h
    exact h

/-- Claim C7, counterexample: for the entry `Doe,John,Jr` the code
yields first name `John` (the second comma-separated segment only),
while the claim predicts `John,Jr` (everything after the first
comma). -/
theorem C7_counterexample :
    parsePersonList "Doe,John,Jr" = [{ firstName := "John", lastName := "Doe" }]
    ∧ parsePersonListSpecC7 "Doe,John,Jr"
        = [{ firstName := "John,Jr", lastName := "Doe" }]
    ∧ parsePersonList "Doe,John,Jr" ≠ parsePersonListSpecC7 "Doe,John,Jr" :=
  ⟨by decide, by decide, by decide⟩

/-- Claim C7, amended: the parser splits on semicolons, drops blank
trimmed entries, and an entry containing a comma is split on commas
with the FIRST TWO trimmed segments becoming last and first name (text
after a second comma is discarded); an entry without a comma is a bare
last name with empty first name. -/
theorem C7_amended (s : String) : parsePersonList s = parsePersonListAmended s := by
  by_cases h0 : s = ""
  · subst h0; rfl
  · unfold parsePersonList parsePersonListAmended
    rw [if_neg h0]
    by_cases hinc : jsIncludes s ';' = true
    · rw [if_pos hinc]
    · rw [if_neg hinc, splitOnChar_no_sep ';' s (by simpa using hinc)]

/-- Claim C8, code bug: for a row with country `France`, place `Paris`
and empty region, the constructed publisher location is `Paris`, not
`France, Paris` — the source reads the misspelled record field
`coutnry`, so the `country` column can never contribute. -/
theorem C8_country_never_joined :
    pubLocOf (createZoteroItemFromCsv 1
        ["country", "place", "region", "type", "sn"]
        ["France", "Paris", "", "book", "42"]) = some "Paris"
    ∧ some "Paris" ≠ some "France, Paris" :=
  ⟨by decide, by decide⟩

/-- Claim C9, code bug: with the input-path argument missing,
`process.argv` still holds the runtime and script paths, so the guard
`process.argv.length < 2` does not fire and no usage message is
printed; instead the program proceeds and `isCSVFile(undefined)`
throws.  With the argument present the usage branch is likewise not
taken. -/
theorem C9_usage_branch_dead :
    cliEntry ["/usr/bin/node", "rdf_converter.mts"] = .run none
    ∧ dispatchInput none = .error "TypeError: filePath is undefined"
    ∧ cliEntry ["/usr/bin/node", "rdf_converter.mts", "in.csv"]
        = .run (some "in.csv") :=
  ⟨by decide, rfl, by decide⟩

/-- Claim C10: every item built from a tabular row has its publisher
set (even when the printer name and all locality fields are empty), and
the serializer therefore emits the `dc:publisher` block for it. -/
theorem C10_publisher_always (lc : String → String → Int) (idCounter : Nat)
    (headers values : List String) (origId : String) (item : ZoteroItem) (n : Nat)
    (h : createZoteroItemFromCsv idCounter headers values = .ok (origId, item, n)) :
    item.publisher.isSome = true
    ∧ ∃ pre post, processItem lc item
        = pre ++ publisherXml (item.publisher.getD { name := "", location := "" })
            ++ post := by
  have hpub : item.publisher.isSome = true := by
    unfold createZoteroItemFromCsv at h
    cases hty : recGet (buildRecord headers values) "type" with
    | none =>
      simp only [hty] at h
      exact Except.noConfusion h
    | some ty =>
      simp only [hty, Except.ok.injEq, Prod.mk.injEq] at h
      obtain ⟨-, hit, -⟩ := h
      subst hit
      rfl
  refine ⟨hpub, itemOpen item ++ seriesField item,
    String.join ((fieldChunks lc item).drop 3), ?_⟩
  rw [processItem_eq_join]
  have hpf : publisherField item
      = publisherXml (item.publisher.getD { name := "", location := "" }) := by
    simp [publisherField, hpub]
  simp only [fieldChunks, List.drop]
  rw [join_cons, join_cons, join_cons, ← hpf]
  simp only [fieldChunks, String.append_assoc]

/-- Witness for claim C10 at the row with empty `type` and `sn`
values. -/
theorem C10_witness : itemEmptyRow.publisher.isSome = true :=
  (C10_publisher_always lcStr 1 ["type", "sn"] ["", ""] "" itemEmptyRow 3
    (by decide)).1

/-! Person sorting (claim C5).  The locale comparison `lc` is abstract;
the hypotheses say it behaves like a comparison function: the sign
flips when the arguments swap, and non-positivity is transitive. -/

theorem cmp_zero_sym {lc : String → String → Int}
    (H1 : ∀ a b, lc a b < 0 ↔ 0 < lc b a) {a b : String} (h : lc a b = 0) :
    lc b a = 0 := by
  have h1 := H1 a b
  have h2 := H1 b a
  omega

theorem personCmp_le_iff (lc : String → String → Int) (a b : Person) :
    personCmp lc a b ≤ 0 ↔ personLexLe lc a b := by
  simp only [personCmp, personLexLe]
  by_cases h : lc a.lastName b.lastName = 0
  · rw [if_pos h]
    constructor
    · intro hf; exact Or.inr ⟨h, hf⟩
    · rintro (hlt | ⟨-, hf⟩)
      · omega
      · exact hf
  · rw [if_neg h]
    constructor
    · intro hle; exact Or.inl (by omega)
    · rintro (hlt | ⟨hz, -⟩)
      · omega
      · exact absurd hz h

theorem pc_imp_last_le {lc : String → String → Int} {a b : Person}
    (h : personCmp lc a b ≤ 0) : lc a.lastName b.lastName ≤ 0 := by
  simp only [personCmp] at h
  by_cases hz : lc a.lastName b.lastName = 0
  · omega
  · rw [if_neg hz] at h; exact h

theorem personCmp_total {lc : String → String → Int}
    (H1 : ∀ a b, lc a b < 0 ↔ 0 < lc b a) (a b : Person) :
    personCmp lc a b ≤ 0 ∨ personCmp lc b a ≤ 0 := by
  simp only [personCmp]
  by_cases h : lc a.lastName b.lastName = 0
  · have h' : lc b.lastName a.lastName = 0 := cmp_zero_sym H1 h
    rw [if_pos h, if_pos h']
    have hf := H1 a.firstName b.firstName
    have hf' := H1 b.firstName a.firstName
    omega
  · have h1 := H1 a.lastName b.lastName
    have h2 := H1 b.lastName a.lastName
    by_cases h' : lc b.lastName a.lastName = 0
    · exact absurd (cmp_zero_sym H1 h') h
    · rw [if_neg h, if_neg h']
      omega

theorem personCmp_trans {lc : String → String → Int}
    (H1 : ∀ a b, lc a b < 0 ↔ 0 < lc b a)
    (H2 : ∀ a b c, lc a b ≤ 0 → lc b c ≤ 0 → lc a c ≤ 0)
    (a b c : Person) (hab : personCmp lc a b ≤ 0) (hbc : personCmp lc b c ≤ 0) :
    personCmp lc a c ≤ 0 := by
  have L1 := pc_imp_last_le hab
  have L2 := pc_imp_last_le hbc
  have L3 : lc a.lastName c.lastName ≤ 0 := H2 _ _ _ L1 L2
  by_cases hz : lc a.lastName c.lastName = 0
  · have hca : lc c.lastName a.lastName = 0 := cmp_zero_sym H1 hz
    have hz1 : lc a.lastName b.lastName = 0 := by
      by_contra hne
      have hlt : lc a.lastName b.lastName < 0 := by omega
      have hba : lc b.lastName a.lastName ≤ 0 :=
        H2 _ _ _ L2 (le_of_eq hca)
      have := (H1 a.lastName b.lastName).mp hlt
      omega
    have hz2 : lc b.lastName c.lastName = 0 := by
      by_contra hne
      have hlt : lc b.lastName c.lastName < 0 := by omega
      have hcb : lc c.lastName b.lastName ≤ 0 :=
        H2 _ _ _ (le_of_eq hca) L1
      have := (H1 b.lastName c.lastName).mp hlt
      omega
    have hf1 : lc a.firstName b.firstName ≤ 0 := by
      simp only [personCmp] at hab; rwa [if_pos hz1] at hab
    have hf2 : lc b.firstName c.firstName ≤ 0 := by
      simp only [personCmp] at hbc; rwa [if_pos hz2] at hbc
    have hf3 := H2 _ _ _ hf1 hf2
    simp only [personCmp]
    rwa [if_pos hz]
  · simp only [personCmp]
    rw [if_neg hz]
    exact L3

/-- Claim C5: for every item and every person list on it (authors,
contributors, editors, series-editors, translators), when the list is
present and non-empty the serializer emits `addPeople` of the sorted
list (which renders one person node per entry in list order), and the
sorted list is a permutation of the input list that is sorted ascending
by last name and then first name under the locale comparison —
regardless of the input order. -/
theorem C5_person_sort (lc : String → String → Int)
    (H1 : ∀ a b, lc a b < 0 ↔ 0 < lc b a)
    (H2 : ∀ a b c, lc a b ≤ 0 → lc b c ≤ 0 → lc a c ≤ 0)
    (item : ZoteroItem) :
    (∀ l, item.authors = some l → l ≠ [] →
      (∃ pre post, processItem lc item
          = pre ++ addPeople (sortPersons lc l) "bib:authors" ++ post)
      ∧ (sortPersons lc l).Perm l
      ∧ (sortPersons lc l).Sorted (personLexLe lc))
    ∧ (∀ l, item.contributors = some l → l ≠ [] →
      (∃ pre post, processItem lc item
          = pre ++ addPeople (sortPersons lc l) "bib:contributors" ++ post)
      ∧ (sortPersons lc l).Perm l
      ∧ (sortPersons lc l).Sorted (personLexLe lc))
    ∧ (∀ l, item.editors = some l → l ≠ [] →
      (∃ pre post, processItem lc item
          = pre ++ addPeople (sortPersons lc l) "bib:editors" ++ post)
      ∧ (sortPersons lc l).Perm l
      ∧ (sortPersons lc l).Sorted (personLexLe lc))
    ∧ (∀ l, item.seriesEditors = some l → l ≠ [] →
      (∃ pre post, processItem lc item
          = pre ++ addPeople (sortPersons lc l) "z:seriesEditors" ++ post)
      ∧ (sortPersons lc l).Perm l
      ∧ (sortPersons lc l).Sorted (personLexLe lc))
    ∧ (∀ l, item.translators = some l → l ≠ [] →
      (∃ pre post, processItem lc item
          = pre ++ addPeople (sortPersons lc l) "z:translators" ++ post)
      ∧ (sortPersons lc l).Perm l
      ∧ (sortPersons lc l).Sorted (personLexLe lc)) := by
  have hperm : ∀ l : List Person, (sortPersons lc l).Perm l :=
    fun l => List.perm_insertionSort _ l
  have hsorted : ∀ l : List Person,
      (sortPersons lc l).Sorted (personLexLe lc) := by
    intro l
    haveI : IsTotal Person (fun a b => personCmp lc a b ≤ 0) :=
      ⟨personCmp_total H1⟩
    haveI : IsTrans Person (fun a b => personCmp lc a b ≤ 0) :=
      ⟨personCmp_trans H1 H2⟩
    have h := List.sorted_insertionSort (fun a b => personCmp lc a b ≤ 0) l
    exact h.imp (fun hab => (personCmp_le_iff lc _ _).mp hab)
  have hchunk : ∀ (k : Nat) (x : String), (fieldChunks lc item).get? k = some x →
      ∃ pre post, processItem lc item = pre ++ x ++ post := by
    intro k x hx
    refine ⟨String.join ((fieldChunks lc item).take k),
      String.join ((fieldChunks lc item).drop (k + 1)), ?_⟩
    rw [processItem_eq_join]
    have hk : k < (fieldChunks lc item).length := by
      by_contra hge
      rw [List.get?_eq_none.mpr (le_of_not_lt hge)] at hx
      exact Option.noConfusion hx
    have hxk : (fieldChunks lc item)[k] = x := by
      have := List.get?_eq_get hk
      rw [this] at hx
      exact Option.some.injEq _ _ ▸ (by simpa using hx)
    conv_lhs => rw [← List.take_append_drop k (fieldChunks lc item)]
    rw [join_append, List.drop_eq_getElem_cons hk, join_cons, hxk,
      String.append_assoc]
  refine ⟨?_, ?_, ?_, ?_, ?_⟩ <;> intro l hsome hne <;>
    refine ⟨?_, hperm l, hsorted l⟩
  · exact hchunk 3 _ (by
      simp [fieldChunks, authorsField, hasItems, hsome, hne])
  · exact hchunk 4 _ (by
      simp [fieldChunks, contributorsField, hasItems, hsome, hne])
  · exact hchunk 5 _ (by
      simp [fieldChunks, editorsField, hasItems, hsome, hne])
  · exact hchunk 6 _ (by
      simp [fieldChunks, seriesEditorsField, hasItems, hsome, hne])
  · exact hchunk 7 _ (by
      simp [fieldChunks, translatorsField, hasItems, hsome, hne])

theorem charLt_iff (a b : Char) : charLt a b = true ↔ a.toNat < b.toNat := by
  simp [charLt]

theorem charLt_eq_of_not (a b : Char) (h1 : charLt a b = false)
    (h2 : charLt b a = false) : a = b := by
  simp only [charLt, decide_eq_false_iff_not, not_lt] at h1 h2
  have hn : a.toNat = b.toNat := le_antisymm h2 h1
  rw [← Char.ofNat_toNat a, hn, Char.ofNat_toNat]

theorem lexLt_irrefl : ∀ l, lexLtChars l l = false
  | [] => rfl
  | a :: as => by
    rw [lexLtChars]
    simp [charLt, lexLt_irrefl as]

theorem lexLt_asymm : ∀ l1 l2, lexLtChars l1 l2 = true → lexLtChars l2 l1 = false
  | [], [] => by simp [lexLtChars]
  | [], _ :: _ => fun _ => rfl
  | _ :: _, [] => by simp [lexLtChars]
  | a :: as, b :: bs => by
    intro h
    rw [lexLtChars] at h
    rw [lexLtChars]
    by_cases h1 : charLt a b = true
    · have hba : charLt b a = false := by
        simp only [charLt, decide_eq_true_eq] at h1
        simp only [charLt, decide_eq_false_iff_not]
        omega
      rw [if_neg (by simp [hba]), if_pos h1]
    · have h1f : charLt a b = false := Bool.eq_false_iff.mpr h1
      rw [if_neg (by simp [h1f])] at h
      by_cases h2 : charLt b a = true
      · rw [if_pos h2] at h
        exact Bool.noConfusion h
      · have h2f : charLt b a = false := Bool.eq_false_iff.mpr h2
        rw [if_neg (by simp [h2f])] at h
        rw [if_neg (by simp [h2f]), if_neg (by simp [h1f])]
        exact lexLt_asymm as bs h

theorem lexLt_connex : ∀ l1 l2, lexLtChars l1 l2 = false →
    lexLtChars l2 l1 = false → l1 = l2
  | [], [] => fun _ _ => rfl
  | [], _ :: _ => by simp [lexLtChars]
  | _ :: _, [] => by simp [lexLtChars]
  | a :: as, b :: bs => by
    intro h1 h2
    rw [lexLtChars] at h1 h2
    by_cases hab : charLt a b = true
    · rw [if_pos hab] at h1
      exact Bool.noConfusion h1
    · have habf : charLt a b = false := Bool.eq_false_iff.mpr hab
      by_cases hba : charLt b a = true
      · rw [if_pos hba] at h2
        exact Bool.noConfusion h2
      · have hbaf : charLt b a = false := Bool.eq_false_iff.mpr hba
        rw [if_neg (by simp [habf]), if_neg (by simp [hbaf])] at h1
        rw [if_neg (by simp [hbaf]), if_neg (by simp [habf])] at h2
        rw [charLt_eq_of_not a b habf hbaf, lexLt_connex as bs h1 h2]

theorem lexLt_trans : ∀ l1 l2 l3, lexLtChars l1 l2 = true →
    lexLtChars l2 l3 = true → lexLtChars l1 l3 = true
  | [], [], _ => by simp [lexLtChars]
  | _ :: _, [], _ => by simp [lexLtChars]
  | _, _ :: _, [] => by simp [lexLtChars]
  | [], _ :: _, _ :: _ => fun _ _ => rfl
  | a :: as, b :: bs, c :: cs => by
    intro h12 h23
    rw [lexLtChars] at h12 h23 ⊢
    by_cases hab : charLt a b = true
    · by_cases hbc : charLt b c = true
      · have hac : charLt a c = true := by
          simp only [charLt, decide_eq_true_eq] at hab hbc ⊢
          omega
        rw [if_pos hac]
      · have hbcf : charLt b c = false := Bool.eq_false_iff.mpr hbc
        rw [if_neg (by simp [hbcf])] at h23
        by_cases hcb : charLt c b = true
        · rw [if_pos hcb] at h23
          exact Bool.noConfusion h23
        · have hcbf : charLt c b = false := Bool.eq_false_iff.mpr hcb
          have hbceq : b = c := charLt_eq_of_not b c hbcf hcbf
          subst hbceq
          rw [if_pos hab]
    · have habf : charLt a b = false := Bool.eq_false_iff.mpr hab
      rw [if_neg (by simp [habf])] at h12
      by_cases hba : charLt b a = true
      · rw [if_pos hba] at h12
        exact Bool.noConfusion h12
      · have hbaf : charLt b a = false := Bool.eq_false_iff.mpr hba
        rw [if_neg (by simp [hbaf])] at h12
        have habeq : a = b := charLt_eq_of_not a b habf hbaf
        subst habeq
        by_cases hac : charLt a c = true
        · rw [if_pos hac]
        · have hacf : charLt a c = false := Bool.eq_false_iff.mpr hac
          rw [if_neg (by simp [hacf])] at h23 ⊢
          by_cases hca : charLt c a = true
          · rw [if_pos hca] at h23
            exact Bool.noConfusion h23
          · have hcaf : charLt c a = false := Bool.eq_false_iff.mpr hca
            rw [if_neg (by simp [hcaf])] at h23 ⊢
            exact lexLt_trans as bs cs h12 h23

theorem str_eq_of_data {a b : String} (h : a.data = b.data) : a = b := by
  cases a
  cases b
  exact congrArg String.mk h

theorem lcStr_H1 (a b : String) : lcStr a b < 0 ↔ 0 < lcStr b a := by
  unfold lcStr
  by_cases hab : lexLtChars a.data b.data = true
  · rw [if_pos hab]
    have hba : lexLtChars b.data a.data = false := lexLt_asymm _ _ hab
    rw [if_neg (by simp [hba])]
    have hne : ¬(b == a) = true := by
      simp only [beq_iff_eq]
      rintro rfl
      rw [lexLt_irrefl] at hab
      exact Bool.noConfusion hab
    rw [if_neg hne]
    norm_num
  · have habf : lexLtChars a.data b.data = false := Bool.eq_false_iff.mpr hab
    rw [if_neg (by simp [habf])]
    by_cases hba : lexLtChars b.data a.data = true
    · rw [if_pos hba]
      have hne : ¬(a == b) = true := by
        simp only [beq_iff_eq]
        rintro rfl
        rw [lexLt_irrefl] at hba
        exact Bool.noConfusion hba
      rw [if_neg hne]
      norm_num
    · have hbaf : lexLtChars b.data a.data = false := Bool.eq_false_iff.mpr hba
      have heq : a = b := str_eq_of_data (lexLt_connex _ _ habf hbaf)
      subst heq
      rw [if_pos (show (a == a) = true by simp),
        if_neg (show ¬(lexLtChars a.data a.data = true) by simp [lexLt_irrefl])]

theorem lcStr_le_iff (a b : String) :
    lcStr a b ≤ 0 ↔ (lexLtChars a.data b.data = true ∨ a = b) := by
  unfold lcStr
  by_cases hab : lexLtChars a.data b.data = true
  · rw [if_pos hab]
    constructor
    · intro _; exact Or.inl hab
    · intro _; norm_num
  · have habf : lexLtChars a.data b.data = false := Bool.eq_false_iff.mpr hab
    rw [if_neg (by simp [habf])]
    by_cases heq : (a == b) = true
    · rw [if_pos heq]
      simp only [beq_iff_eq] at heq
      exact ⟨fun _ => Or.inr heq, fun _ => le_refl 0⟩
    · rw [if_neg heq]
      simp only [beq_iff_eq] at heq
      constructor
      · intro h; norm_num at h
      · rintro (h | h)
        · exact absurd h hab
        · exact absurd h heq

theorem lcStr_H2 (a b c : String) (hab : lcStr a b ≤ 0) (hbc : lcStr b c ≤ 0) :
    lcStr a c ≤ 0 := by
  rw [lcStr_le_iff] at hab hbc ⊢
  rcases hab with hab | rfl
  · rcases hbc with hbc | rfl
    · exact Or.inl (lexLt_trans _ _ _ hab hbc)
    · exact Or.inl hab
  · exact hbc


/-- Witness for claim C5 at a concrete out-of-order author list with a
last-name tie, under the concrete lexicographic locale comparison. -/
theorem C5_witness :
    (sortPersons lcStr peopleSample).Perm peopleSample
    ∧ (sortPersons lcStr peopleSample).Sorted (personLexLe lcStr) := by
  have h := (C5_person_sort lcStr lcStr_H1 lcStr_H2 itemPeople).1
    peopleSample rfl (by decide)
  exact ⟨h.2.1, h.2.2⟩

/-! The relations table (claim C4). -/

theorem createZotero_ok_shape {idc : Nat} {headers values : List String}
    {o : String} {it : ZoteroItem} {n : Nat}
    (h : createZoteroItemFromCsv idc headers values = .ok (o, it, n)) :
    o = origIdOf headers values ∧ it.id = toString idc ∧ n = idc + 2 := by
  unfold createZoteroItemFromCsv at h
  cases hty : recGet (buildRecord headers values) "type" with
  | none =>
    simp only [hty] at h
    exact Except.noConfusion h
  | some ty =>
    simp only [hty, Except.ok.injEq, Prod.mk.injEq] at h
    obtain ⟨ho, hit, hn⟩ := h
    subst hit
    exact ⟨ho.symm, rfl, hn.symm⟩

theorem lookup_cons_key {β : Type} (a : String) (b : β)
    (es : List (String × β)) (k : String) (h : k = a) :
    ((a, b) :: es).lookup k = some b := by
  subst h
  simp

theorem lookup_cons_ne {β : Type} (a : String) (b : β)
    (es : List (String × β)) (k : String) (h : k ≠ a) :
    ((a, b) :: es).lookup k = es.lookup k := by
  rw [List.lookup_cons]
  have hb : (k == a) = false := by simpa using h
  rw [hb]

theorem lookup_map_push (m : List (String × List String)) (k v : String) :
    (m.map (fun p => if p.1 == k then (p.1, p.2 ++ [v]) else p)).lookup k
      = (m.lookup k).map (fun l => l ++ [v]) := by
  induction m with
  | nil => rfl
  | cons p t ih =>
    obtain ⟨a, b⟩ := p
    by_cases ha : a = k
    · have hif : (if (a == k) = true then (a, b ++ [v]) else (a, b))
          = (a, b ++ [v]) := by simp [ha]
      rw [List.map_cons, hif, lookup_cons_key a (b ++ [v]) _ k ha.symm,
        lookup_cons_key a b t k ha.symm]
      rfl
    · have hif : (if (a == k) = true then (a, b ++ [v]) else (a, b))
          = (a, b) := by simp [ha]
      rw [List.map_cons, hif, lookup_cons_ne a b _ k (fun hx => ha hx.symm),
        lookup_cons_ne a b t k (fun hx => ha hx.symm), ih]

theorem lookup_map_push_other (m : List (String × List String)) (k v k' : String)
    (h : k' ≠ k) :
    (m.map (fun p => if p.1 == k then (p.1, p.2 ++ [v]) else p)).lookup k'
      = m.lookup k' := by
  induction m with
  | nil => rfl
  | cons p t ih =>
    obtain ⟨a, b⟩ := p
    by_cases hak : a = k
    · have hif : (if (a == k) = true then (a, b ++ [v]) else (a, b))
          = (a, b ++ [v]) := by simp [hak]
      rw [List.map_cons, hif]
      by_cases hka : k' = a
      · exact absurd (hka.trans hak) h
      · rw [lookup_cons_ne a (b ++ [v]) _ k' hka, lookup_cons_ne a b t k' hka, ih]
    · have hif : (if (a == k) = true then (a, b ++ [v]) else (a, b))
          = (a, b) := by simp [hak]
      rw [List.map_cons, hif]
      by_cases hka : k' = a
      · rw [lookup_cons_key a b _ k' hka, lookup_cons_key a b t k' hka]
      · rw [lookup_cons_ne a b _ k' hka, lookup_cons_ne a b t k' hka, ih]

theorem any_key_lookup_isSome (m : List (String × List String)) (k : String)
    (h : m.any (fun p => p.1 == k) = true) : (m.lookup k).isSome = true := by
  rw [List.lookup_isSome_iff]
  simp only [List.any_eq_true, beq_iff_eq] at h
  obtain ⟨p, hp, hpk⟩ := h
  exact ⟨p, hp, by simp [hpk]⟩

theorem not_any_key_lookup_none (m : List (String × List String)) (k : String)
    (h : m.any (fun p => p.1 == k) = false) : m.lookup k = none := by
  rw [List.lookup_eq_none_iff]
  intro p hp
  have hne := List.any_eq_false.mp h p hp
  simp only [beq_iff_eq] at hne
  simp only [bne_iff_ne, ne_eq]
  exact fun hk => hne hk.symm

theorem pushOrig_lookup_same (m : List (String × List String)) (k v : String) :
    (pushOrig m k v).lookup k = some ((m.lookup k).getD [] ++ [v]) := by
  unfold pushOrig
  by_cases hany : m.any (fun p => p.1 == k) = true
  · rw [if_pos hany, lookup_map_push]
    obtain ⟨l, hl⟩ := Option.isSome_iff_exists.mp (any_key_lookup_isSome m k hany)
    rw [hl]
    rfl
  · rw [if_neg hany, List.lookup_append,
      not_any_key_lookup_none m k (Bool.eq_false_iff.mpr hany),
      lookup_cons_key k [v] [] k rfl]
    rfl

theorem pushOrig_lookup_other (m : List (String × List String)) (k v k' : String)
    (h : k' ≠ k) : (pushOrig m k v).lookup k' = m.lookup k' := by
  unfold pushOrig
  by_cases hany : m.any (fun p => p.1 == k) = true
  · rw [if_pos hany, lookup_map_push_other m k v k' h]
  · rw [if_neg hany, List.lookup_append]
    have hnone : ([(k, [v])] : List (String × List String)).lookup k' = none := by
      rw [lookup_cons_ne _ _ _ _ h]
      rfl
    rw [hnone, Option.or_none]

theorem pushOrig_keys_nodup (m : List (String × List String)) (k v : String)
    (h : (m.map Prod.fst).Nodup) : ((pushOrig m k v).map Prod.fst).Nodup := by
  unfold pushOrig
  by_cases hany : m.any (fun p => p.1 == k) = true
  · rw [if_pos hany]
    have hkeys : (m.map (fun p => if p.1 == k then (p.1, p.2 ++ [v]) else p)).map
        Prod.fst = m.map Prod.fst := by
      rw [List.map_map]
      apply List.map_congr_left
      intro p _
      by_cases hp : p.1 = k <;> simp [hp]
    rwa [hkeys]
  · rw [if_neg hany, List.map_append]
    have hany' := List.any_eq_false.mp (Bool.eq_false_iff.mpr hany)
    refine List.Nodup.append h (by simp) ?_
    intro a ha hb
    simp only [List.map_cons, List.map_nil, List.mem_singleton] at hb
    subst hb
    simp only [List.mem_map] at ha
    obtain ⟨p, hp, hpk⟩ := ha
    have := hany' p hp
    simp only [beq_iff_eq] at this
    exact this hpk

theorem combineGroup_nil (o : Option (List String)) : combineGroup o [] = o := by
  cases o <;> simp [combineGroup]

theorem combineGroup_push (o : Option (List String)) (tid : String)
    (g : List String) :
    combineGroup (some (o.getD [] ++ [tid])) g = combineGroup o ([tid] ++ g) := by
  cases o <;> simp [combineGroup]

theorem csvFold_lookup (headers : List String) :
    ∀ (lines : List String) (idc : Nat)
      (items : List (String × ZoteroItem)) (orig : List (String × List String))
      (out : Nat × List (String × ZoteroItem) × List (String × List String)),
      csvFold headers lines (idc, items, orig) = .ok out →
      ∀ k, out.2.2.lookup k
        = combineGroup (orig.lookup k) (groupFrom headers k idc lines) := by
  intro lines
  induction lines with
  | nil =>
    intro idc items orig out h k
    simp only [csvFold, Except.ok.injEq] at h
    subst h
    rw [groupFrom, combineGroup_nil]
  | cons line rest ih =>
    intro idc items orig out h k
    rw [csvFold] at h
    simp only [groupFrom]
    by_cases hblank : jsTrim line = ""
    · rw [if_pos hblank] at h
      rw [if_pos hblank]
      exact ih idc items orig out h k
    · rw [if_neg hblank] at h
      rw [if_neg hblank]
      simp only at h
      by_cases hlen : ((parseCSVLine line).length != headers.length) = true
      · rw [if_pos hlen] at h
        rw [if_pos hlen]
        exact ih idc items orig out h k
      · rw [if_neg hlen] at h
        rw [if_neg hlen]
        cases hcz : createZoteroItemFromCsv idc headers (parseCSVLine line) with
        | error e =>
          rw [hcz] at h
          exact Except.noConfusion h
        | ok tpl =>
          obtain ⟨origId, item, idc2⟩ := tpl
          rw [hcz] at h
          obtain ⟨ho, hid, hn⟩ := createZotero_ok_shape hcz
          subst ho
          subst hn
          have hrec := ih _ _ _ out h k
          rw [hrec, hid]
          by_cases hk : origIdOf headers (parseCSVLine line) = k
          · rw [if_pos hk, ← hk, pushOrig_lookup_same, combineGroup_push]
          · rw [if_neg hk,
              pushOrig_lookup_other orig (origIdOf headers (parseCSVLine line))
                (toString idc) k (fun hx => hk hx.symm)]
            rfl

theorem csvFold_keys_nodup (headers : List String) :
    ∀ (lines : List String) (idc : Nat)
      (items : List (String × ZoteroItem)) (orig : List (String × List String))
      (out : Nat × List (String × ZoteroItem) × List (String × List String)),
      csvFold headers lines (idc, items, orig) = .ok out →
      (orig.map Prod.fst).Nodup → (out.2.2.map Prod.fst).Nodup := by
  intro lines
  induction lines with
  | nil =>
    intro idc items orig out h hnd
    simp only [csvFold, Except.ok.injEq] at h
    subst h
    exact hnd
  | cons line rest ih =>
    intro idc items orig out h hnd
    rw [csvFold] at h
    by_cases hblank : jsTrim line = ""
    · rw [if_pos hblank] at h
      exact ih idc items orig out h hnd
    · rw [if_neg hblank] at h
      simp only at h
      by_cases hlen : ((parseCSVLine line).length != headers.length) = true
      · rw [if_pos hlen] at h
        exact ih idc items orig out h hnd
      · rw [if_neg hlen] at h
        cases hcz : createZoteroItemFromCsv idc headers (parseCSVLine line) with
        | error e =>
          rw [hcz] at h
          exact Except.noConfusion h
        | ok tpl =>
          obtain ⟨origId, item, idc2⟩ := tpl
          rw [hcz] at h
          exact ih _ _ _ out h (pushOrig_keys_nodup orig origId item.id hnd)

theorem lookup_of_mem_nodup :
    ∀ {m : List (String × List String)}, (m.map Prod.fst).Nodup →
      ∀ {k : String} {v : List String}, (k, v) ∈ m → m.lookup k = some v := by
  intro m
  induction m with
  | nil => intro _ k v hm; exact absurd hm (List.not_mem_nil _)
  | cons p t ih =>
    intro hnd k v hm
    obtain ⟨a, b⟩ := p
    simp only [List.map_cons, List.nodup_cons] at hnd
    rcases List.mem_cons.mp hm with heq | hmem
    · injection heq with h1 h2
      subst h1
      subst h2
      exact lookup_cons_key k v t k rfl
    · have hk : k ≠ a := by
        intro hka
        subst hka
        exact hnd.1 (List.mem_map_of_mem Prod.fst hmem)
      rw [lookup_cons_ne a b t k hk]
      exact ih hnd.2 hmem

/-- Claim C4: every entry of the relations table returned by the
tabular parser maps an original identifier `k` to exactly the list of
synthesized item identifiers of the rows sharing `k` (in row order, as
`groupFrom` collects them), and no entry's list has length one — every
group has at least two members. -/
theorem C4_relations (lc : String → String → Int) (csv : String)
    (data : ZoteroData) (k : String) (v : List String)
    (hok : parseCsvToJson lc csv = .ok data)
    (hmem : (k, v) ∈ data.relations) :
    v.length ≠ 1 ∧ 2 ≤ v.length
    ∧ v = groupFrom (csvHeaders csv) k 1 (csvDataLines csv) := by
  unfold parseCsvToJson at hok
  cases hcf : csvFold (csvHeaders csv) (csvDataLines csv) (1, [], []) with
  | error e =>
    simp only [hcf] at hok
    exact Except.noConfusion hok
  | ok st =>
    obtain ⟨idc', items', orig'⟩ := st
    simp only [hcf, Except.ok.injEq] at hok
    subst hok
    have hmf := List.mem_filter.mp hmem
    have hlen1 : v.length ≠ 1 := by simpa using hmf.2
    have hnd : (orig'.map Prod.fst).Nodup :=
      csvFold_keys_nodup (csvHeaders csv) (csvDataLines csv) 1 [] []
        (idc', items', orig') hcf (by simp)
    have hlk : orig'.lookup k = some v := lookup_of_mem_nodup hnd hmf.1
    have hinv := csvFold_lookup (csvHeaders csv) (csvDataLines csv) 1 [] []
      (idc', items', orig') hcf k
    rw [hlk] at hinv
    simp only [List.lookup_nil, combineGroup] at hinv
    by_cases hg : groupFrom (csvHeaders csv) k 1 (csvDataLines csv) = []
    · rw [if_pos hg] at hinv
      exact Option.noConfusion hinv
    · rw [if_neg hg] at hinv
      have hv : v = groupFrom (csvHeaders csv) k 1 (csvDataLines csv) :=
        Option.some.inj hinv
      refine ⟨hlen1, ?_, hv⟩
      have hne : v ≠ [] := by rw [hv]; exact hg
      have h0 : v.length ≠ 0 := by
        intro h0
        exact hne (List.length_eq_zero.mp h0)
      omega

/-- Witness for claim C4 at the duplicate-identifier input: the parsed
relations contain the entry for original identifier `42`, whose group
is the two synthesized identifiers `1` and `3` (as `groupFrom`
recomputes), and is not a singleton. -/
theorem C4_witness :
    (["1", "3"] : List String).length ≠ 1
    ∧ ["1", "3"] = groupFrom (csvHeaders csvDup) "42" 1 (csvDataLines csvDup) := by
  have h := C4_relations lcStr csvDup dataDup "42" ["1", "3"]
    (by decide) (by decide)
  exact ⟨h.1, h.2.2⟩

end RdfConv
